import Mathlib

/-!
Verification development for the orchestrator core of the minecraft-AI
repository: shallow embeddings of the lock manager, admission limiters,
planner rate limiter, subgoal normalizer, fallback planner, feasibility
guard, skill engine dispatch and the controller retry machinery, together
with theorems settling the specification claims about them.

Machine numbers are modelled as Nat (timestamps, counts) or Int
(coordinates, distances); where JavaScript subtraction can go negative the
surrounding code clamps the result, and each such place is noted.
-/

namespace MinecraftAI

namespace LockMgr

/-- Mirrors interface LockLease of coordination/explorer-limiter.ts:
resource key, owning bot and absolute expiry timestamp (ms). -/
structure LockLease where
  resourceKey : String
  ownerBotId : String
  expiresAt : Nat
deriving DecidableEq, Repr

/-- State of class LockManager: the leases Map, modelled as an insertion
ordered association list keyed by resourceKey. leaseMs is passed to the
operations explicitly. Store side effects (insertLockEvent) are pure
logging and are not part of the lock state. -/
structure LMState where
  leases : List LockLease
deriving DecidableEq, Repr

/-- The empty lock table (a fresh LockManager). -/
def lmInit : LMState := ⟨[]⟩

/-- Map.get: the lease stored under a key, if any. -/
def getLease (s : LMState) (key : String) : Option LockLease :=
  s.leases.find? (fun l => l.resourceKey == key)

/-- Map.set: replace the entry with the lease's key in place, or append. -/
def setLease (s : LMState) (l : LockLease) : LMState :=
  if s.leases.any (fun x => x.resourceKey == l.resourceKey) then
    ⟨s.leases.map (fun x => if x.resourceKey == l.resourceKey then l else x)⟩
  else ⟨s.leases ++ [l]⟩

/-- Map.delete by key. -/
def deleteLease (s : LMState) (key : String) : LMState :=
  ⟨s.leases.filter (fun x => !(x.resourceKey == key))⟩

/-- private expireOldLeases: drop every lease with expiresAt ≤ now. -/
def expireOldLeases (s : LMState) (now : Nat) : LMState :=
  ⟨s.leases.filter (fun l => !(l.expiresAt ≤ now))⟩

/-- LockManager.acquire: lazily expire, then succeed iff the key is unowned
or owned by the caller; on success store a lease expiring at now+leaseMs. -/
def acquire (leaseMs : Nat) (s : LMState) (key owner : String) (now : Nat) :
    LMState × Bool :=
  let s1 := expireOldLeases s now
  match getLease s1 key with
  | some cur =>
      if cur.ownerBotId ≠ owner then (s1, false)
      else (setLease s1 ⟨key, owner, now + leaseMs⟩, true)
  | none => (setLease s1 ⟨key, owner, now + leaseMs⟩, true)

/-- LockManager.heartbeat: no lazy expiry here; succeed only when the stored
lease's owner is the caller, extending expiresAt to now+leaseMs. -/
def heartbeat (leaseMs : Nat) (s : LMState) (key owner : String) (now : Nat) :
    LMState × Bool :=
  match getLease s key with
  | some cur =>
      if cur.ownerBotId = owner then (setLease s ⟨key, owner, now + leaseMs⟩, true)
      else (s, false)
  | none => (s, false)

/-- LockManager.release: no lazy expiry; delete the lease only when the
stored owner is the caller, otherwise a no-op. -/
def release (s : LMState) (key owner : String) : LMState :=
  match getLease s key with
  | some cur => if cur.ownerBotId = owner then deleteLease s key else s
  | none => s

/-- LockManager.ownerOf: lazily expire, then report the stored owner. -/
def ownerOf (s : LMState) (key : String) (now : Nat) : LMState × Option String :=
  let s1 := expireOldLeases s now
  (s1, (getLease s1 key).map (fun l => l.ownerBotId))

/-- One call against the lock manager, with its wall-clock time. -/
inductive LMOp where
  | acquire (key owner : String) (now : Nat)
  | heartbeat (key owner : String) (now : Nat)
  | release (key owner : String) (now : Nat)
  | ownerOf (key : String) (now : Nat)
deriving DecidableEq, Repr

/-- State transition of a single lock-manager call. -/
def stepLM (leaseMs : Nat) (s : LMState) : LMOp → LMState
  | .acquire k o n => (acquire leaseMs s k o n).1
  | .heartbeat k o n => (heartbeat leaseMs s k o n).1
  | .release k o _ => release s k o
  | .ownerOf k n => (ownerOf s k n).1

/-- Run a sequence of lock-manager calls. -/
def runLM (leaseMs : Nat) (s : LMState) : List LMOp → LMState
  | [] => s
  | op :: ops => runLM leaseMs (stepLM leaseMs s op) ops

/-- The stored resource keys, in insertion order. -/
def leaseKeys (s : LMState) : List String :=
  s.leases.map (fun l => l.resourceKey)

/-- Well-formedness of the Map model: stored keys are pairwise distinct. -/
def KeysOk (s : LMState) : Prop := (leaseKeys s).Nodup

/-- Owners of leases on a key that are active (now < expiresAt) at time now. -/
def activeOwners (s : LMState) (key : String) (now : Nat) : List String :=
  ((s.leases.filter (fun l => l.resourceKey == key && decide (now < l.expiresAt))).map
    (fun l => l.ownerBotId))

end LockMgr

namespace SkillLim

/-- State of class SkillLimiter (coordination/explorer-limiter.ts): the
bounded active set and the waiting FIFO, both of bot ids. The active Set is
modelled as a duplicate-free insertion-ordered list. -/
structure SLState where
  maxConcurrent : Nat
  active : List String
  waiting : List String
deriving DecidableEq, Repr

/-- SkillLimiter.tryEnter: grant when already inside; otherwise append to the
waiting FIFO when absent (idempotent), refuse unless at its head with a free
slot, and in that case shift the FIFO and join the active set. -/
def tryEnter (s : SLState) (botId : String) : SLState × Bool :=
  if botId ∈ s.active then (s, true)
  else
    let w := if botId ∈ s.waiting then s.waiting else s.waiting ++ [botId]
    if w.head? ≠ some botId then ({ s with waiting := w }, false)
    else if s.maxConcurrent ≤ s.active.length then ({ s with waiting := w }, false)
    else ({ s with waiting := w.tail, active := s.active ++ [botId] }, true)

/-- SkillLimiter.leave: drop the bot from the active set and remove its first
occurrence (indexOf + splice) from the waiting FIFO. forget delegates here. -/
def leave (s : SLState) (botId : String) : SLState :=
  { s with active := s.active.filter (fun x => !(x == botId)),
           waiting := s.waiting.erase botId }

/-- One limiter call: a tryEnter or a leave by some bot. -/
inductive SLOp where
  | enter (botId : String)
  | leave (botId : String)
deriving DecidableEq, Repr

/-- The bot issuing a limiter call. -/
def SLOp.bot : SLOp → String
  | .enter b => b
  | .leave b => b

/-- State transition of one limiter call. -/
def stepSL (s : SLState) : SLOp → SLState
  | .enter b => (tryEnter s b).1
  | .leave b => leave s b

/-- Run a sequence of limiter calls. -/
def runSL (s : SLState) : List SLOp → SLState
  | [] => s
  | op :: ops => runSL (stepSL s op) ops

end SkillLim

/-- A JSON-ish parameter value one level down (inside a params object such
as goto's nested location). The sources only ever read one level of
nesting, so the embedding stops there. -/
inductive SimpleValue where
  | str (s : String)
  | num (n : Int)
  | boolean (b : Bool)
  | nullval
deriving DecidableEq, Repr

/-- A JSON-ish parameter value as stored in subgoal params. JavaScript
numbers are modelled as Int: every comparison and cast the embedded modules
perform is on integral values. -/
inductive Value where
  | str (s : String)
  | num (n : Int)
  | boolean (b : Bool)
  | nullval
  | obj (fields : List (String × SimpleValue))
deriving DecidableEq, Repr

/-- Property access on a params object (undefined when the key is absent). -/
def getParam (params : List (String × Value)) (key : String) : Option Value :=
  (params.find? (fun p => p.1 == key)).map (fun p => p.2)

/-- JavaScript nullish test: undefined (none) or null. -/
def nullish : Option Value → Bool
  | none => true
  | some Value.nullval => true
  | _ => false

/-- JavaScript a ?? b. -/
def coalesce (a b : Option Value) : Option Value :=
  if nullish a then b else a

/-- A whitespace character as String.prototype.trim sees it (the planner
and catalog strings only ever carry ASCII whitespace). -/
def isSpaceChar (c : Char) : Bool :=
  c = ' ' ∨ c = '\t' ∨ c = '\n' ∨ c = '\r'

/-- String.prototype.trim: drop leading and trailing whitespace. -/
def jsTrim (s : String) : String :=
  String.mk (((s.data.dropWhile isSpaceChar).reverse.dropWhile isSpaceChar).reverse)

/-- JavaScript Number(x) cast, with none standing for NaN. String parsing is
modelled for the blank string (0 in JavaScript), canonical integer literals
and non-numeric strings, the shapes the embedded code paths meet. -/
def jsNumber : Value → Option Int
  | Value.num n => some n
  | Value.str s => if jsTrim s = "" then some 0 else (jsTrim s).toInt?
  | Value.boolean b => some (if b then 1 else 0)
  | Value.nullval => some 0
  | Value.obj _ => none

/-- Number(x) on a one-level-nested value. -/
def jsNumberS : SimpleValue → Option Int
  | SimpleValue.num n => some n
  | SimpleValue.str s => if jsTrim s = "" then some 0 else (jsTrim s).toInt?
  | SimpleValue.boolean b => some (if b then 1 else 0)
  | SimpleValue.nullval => some 0

/-- Number(x) where x may be undefined (Number(undefined) is NaN). -/
def jsNumberOpt : Option Value → Option Int
  | none => none
  | some v => jsNumber v

/-- JavaScript String(x) cast as used for lock keys. -/
def jsString : Value → String
  | Value.str s => s
  | Value.num n => toString n
  | Value.boolean b => if b then "true" else "false"
  | Value.nullval => "null"
  | Value.obj _ => "[object Object]"

/-- The closed SUBGOAL_NAMES set of contracts/skills.ts. -/
inductive SubgoalName where
  | explore
  | goto
  | goto_nearest
  | collect
  | craft
  | smelt
  | deposit
  | withdraw
  | build_blueprint
  | combat_engage
  | combat_guard
deriving DecidableEq, Repr

/-- The string form of a subgoal name (used in keys and notes). -/
def subgoalNameKey : SubgoalName → String
  | .explore => "explore"
  | .goto => "goto"
  | .goto_nearest => "goto_nearest"
  | .collect => "collect"
  | .craft => "craft"
  | .smelt => "smelt"
  | .deposit => "deposit"
  | .withdraw => "withdraw"
  | .build_blueprint => "build_blueprint"
  | .combat_engage => "combat_engage"
  | .combat_guard => "combat_guard"

/-- The closed FAILURE_CODES set of contracts/skills.ts. -/
inductive FailureCode where
  | RESOURCE_NOT_FOUND
  | PATHFIND_FAILED
  | NO_TOOL_AVAILABLE
  | INVENTORY_FULL
  | INTERRUPTED_BY_HOSTILES
  | PLACEMENT_FAILED
  | STUCK_TIMEOUT
  | DEPENDS_ON_ITEM
  | COMBAT_LOST_TARGET
  | BOT_DIED
deriving DecidableEq, Repr

/-- The string form of a failure code. -/
def failureCodeKey : FailureCode → String
  | .RESOURCE_NOT_FOUND => "RESOURCE_NOT_FOUND"
  | .PATHFIND_FAILED => "PATHFIND_FAILED"
  | .NO_TOOL_AVAILABLE => "NO_TOOL_AVAILABLE"
  | .INVENTORY_FULL => "INVENTORY_FULL"
  | .INTERRUPTED_BY_HOSTILES => "INTERRUPTED_BY_HOSTILES"
  | .PLACEMENT_FAILED => "PLACEMENT_FAILED"
  | .STUCK_TIMEOUT => "STUCK_TIMEOUT"
  | .DEPENDS_ON_ITEM => "DEPENDS_ON_ITEM"
  | .COMBAT_LOST_TARGET => "COMBAT_LOST_TARGET"
  | .BOT_DIED => "BOT_DIED"

/-- SkillResultV1 of contracts/skills.ts: the tagged Success/Failure sum.
Optional metrics are modelled as an association list. -/
inductive SkillResultV1 where
  | success (details : String) (metrics : List (String × Int))
  | failure (errorCode : FailureCode) (details : String) (retryable : Bool)
deriving DecidableEq, Repr

/-- PlannerSubgoal of contracts/planner.ts (name, params, success_criteria;
the optional role_suggestion/risk_flags/constraints fields are never read by
the embedded modules and spreads copy them unchanged, so they are elided). -/
structure PlannerSubgoal where
  name : SubgoalName
  params : List (String × Value)
  success_criteria : List (String × Value)
deriving DecidableEq, Repr

namespace Skills

/-- helpers.failure of the skills module: retryable DEFAULTS TO TRUE in the
source; the default is spelled out at every call site here. -/
def failure (errorCode : FailureCode) (details : String) (retryable : Bool) :
    SkillResultV1 :=
  SkillResultV1.failure errorCode details retryable

/-- SkillEngine lockKeyForSubgoal: collect locks resource:<target>,
build_blueprint with numeric anchors locks build:x,y,z, deposit/withdraw
lock storage:base, all other subgoals take no lock. -/
def lockKeyForSubgoal (sg : PlannerSubgoal) : Option String :=
  if sg.name = SubgoalName.collect then
    let target := jsString ((coalesce (getParam sg.params "item")
      (coalesce (getParam sg.params "block") (some (Value.str "")))).getD (Value.str ""))
    if target = "" then none else some ("resource:" ++ target)
  else if sg.name = SubgoalName.build_blueprint then
    match getParam sg.params "anchor_x", getParam sg.params "anchor_y",
        getParam sg.params "anchor_z" with
    | some (Value.num ax), some (Value.num ay), some (Value.num az) =>
        some ("build:" ++ toString ax ++ "," ++ toString ay ++ "," ++ toString az)
    | _, _, _ => none
  else if sg.name = SubgoalName.deposit ∨ sg.name = SubgoalName.withdraw then
    some "storage:base"
  else none

/-- A value thrown by a skill handler: either an object carrying an
errorCode field (a structured SkillResult), an Error instance with a
message, or anything else. -/
inductive ThrownValue where
  | structuredResult (r : SkillResultV1)
  | errObject (msg : String)
  | otherValue
deriving DecidableEq, Repr

/-- Whether the thrown value already is a structured result (has an
errorCode field). -/
def ThrownValue.isStructured : ThrownValue → Bool
  | .structuredResult _ => true
  | _ => false

/-- The details message the catch block extracts from a non-structured
thrown value. -/
def thrownMessage : ThrownValue → String
  | .structuredResult _ => ""
  | .errObject msg => msg
  | .otherValue => "unknown skill execution error"

/-- Outcome of awaiting the dispatched handler: a returned result or a
thrown value. -/
inductive HandlerBehavior where
  | returns (r : SkillResultV1)
  | throws (e : ThrownValue)
deriving DecidableEq, Repr

/-- The catch block of SkillEngine.execute: a thrown value with an
errorCode field is returned as-is; anything else is wrapped via
failure(DEPENDS_ON_ITEM, message) whose retryable defaults to true. -/
def catchWrap : ThrownValue → SkillResultV1
  | .structuredResult r => r
  | .errObject msg => failure FailureCode.DEPENDS_ON_ITEM msg true
  | .otherValue => failure FailureCode.DEPENDS_ON_ITEM "unknown skill execution error" true

/-- Running the try block around the handler. -/
def runHandler : HandlerBehavior → SkillResultV1
  | .returns r => r
  | .throws e => catchWrap e

/-- SkillEngine.execute restricted to its returned value: when the subgoal
carries a lock key and the acquire fails, a retryable locked Failure; else
the handler result with the catch wrapping. (handlerMap is total over
SubgoalName, so the unsupported-subgoal guard is unreachable; the heartbeat
ticker and the finally release only bracket the same returned value.) -/
def execute (sg : PlannerSubgoal) (acquired : Bool) (handler : HandlerBehavior) :
    SkillResultV1 :=
  match lockKeyForSubgoal sg with
  | some k =>
      if !acquired then failure FailureCode.DEPENDS_ON_ITEM ("resource locked: " ++ k) true
      else runHandler handler
  | none => runHandler handler

end Skills

namespace Ctrl

/-- The controller config fields read by the failure branch of
BotController.executeNextSubgoal. -/
structure CtrlConfig where
  SUBGOAL_RETRY_LIMIT : Nat
  SUBGOAL_FAILURE_STREAK_WINDOW_MS : Nat
  SUBGOAL_LOOP_GUARD_REPEATS : Nat
deriving DecidableEq, Repr

/-- BotController.canRetryFailure. -/
def canRetryFailure : FailureCode → Bool
  | .RESOURCE_NOT_FOUND => true
  | .PATHFIND_FAILED => true
  | .INTERRUPTED_BY_HOSTILES => true
  | .STUCK_TIMEOUT => true
  | .INVENTORY_FULL => true
  | .COMBAT_LOST_TARGET => true
  | .PLACEMENT_FAILED => true
  | .DEPENDS_ON_ITEM => false
  | .NO_TOOL_AVAILABLE => false
  | .BOT_DIED => false

/-- BotController.retryLimitFor. -/
def retryLimitFor (cfg : CtrlConfig) : FailureCode → Nat
  | .PATHFIND_FAILED => cfg.SUBGOAL_RETRY_LIMIT + 4
  | .RESOURCE_NOT_FOUND => cfg.SUBGOAL_RETRY_LIMIT + 4
  | .INTERRUPTED_BY_HOSTILES => cfg.SUBGOAL_RETRY_LIMIT + 3
  | .COMBAT_LOST_TARGET => cfg.SUBGOAL_RETRY_LIMIT + 3
  | .STUCK_TIMEOUT => cfg.SUBGOAL_RETRY_LIMIT + 2
  | .PLACEMENT_FAILED => cfg.SUBGOAL_RETRY_LIMIT + 2
  | _ => cfg.SUBGOAL_RETRY_LIMIT

/-- A RuntimeSubgoal as the retry machinery sees it. params and
success_criteria are copied unchanged by the retry spread and are elided;
assignedAt (an ISO string) is likewise never branched on. -/
structure RuntimeSubgoal where
  name : SubgoalName
  id : String
  retryCount : Nat
  notBeforeMs : Nat
deriving DecidableEq, Repr

/-- The slice of BotController task/streak state the failure branch reads
and writes. -/
structure CtrlState where
  queue : List RuntimeSubgoal
  repeatedFailureKey : Option String
  repeatedFailureCount : Nat
  repeatedFailureLastAtMs : Nat
  plannerCooldownUntil : Nat
  pendingTriggers : List String
deriving DecidableEq, Repr

/-- The failure streak key "subgoalName:errorCode". -/
def failureKeyOf (sg : RuntimeSubgoal) (code : FailureCode) : String :=
  subgoalNameKey sg.name ++ ":" ++ failureCodeKey code

/-- The updated streak counter: increment when the same key failed within
the streak window, else restart at 1. (JavaScript now − lastAt on a clock
running backwards is negative and hence ≤ window; Nat truncation gives 0,
the same branch.) -/
def newStreak (cfg : CtrlConfig) (s : CtrlState) (failureKey : String) (now : Nat) : Nat :=
  if s.repeatedFailureKey = some failureKey ∧
      now - s.repeatedFailureLastAtMs ≤ cfg.SUBGOAL_FAILURE_STREAK_WINDOW_MS then
    s.repeatedFailureCount + 1
  else 1

/-- retryable after the loop-guard check: forced false once the streak
count reaches SUBGOAL_LOOP_GUARD_REPEATS. -/
def retryableAfterGuard (cfg : CtrlConfig) (rb0 : Bool) (count : Nat) : Bool :=
  if cfg.SUBGOAL_LOOP_GUARD_REPEATS ≤ count then false else rb0

/-- The failure branch of BotController.executeNextSubgoal: compute
retryability (handler retryable AND canRetryFailure), update the streak and
possibly trip the loop guard, then either requeue a copy at the queue head
with retryCount+1 and notBeforeMs = now + delay (the jittered delay and the
fresh id are passed in as oracles), or drop the remaining queue, clear the
planner cooldown to now and push the SUBGOAL_FAILED trigger. Logging,
metrics and store writes are side-effect free w.r.t. this state. -/
def retryCopy (sg : RuntimeSubgoal) (now retryDelayMs : Nat) (newId : String) :
    RuntimeSubgoal :=
  { sg with id := newId, retryCount := sg.retryCount + 1,
            notBeforeMs := now + retryDelayMs }

/-- The failure branch itself; see the comment on retryCopy above. -/
def handleFailure (cfg : CtrlConfig) (s : CtrlState) (sg : RuntimeSubgoal)
    (code : FailureCode) (resultRetryable : Bool) (now retryDelayMs : Nat)
    (newId : String) : CtrlState :=
  if retryableAfterGuard cfg (resultRetryable && canRetryFailure code)
      (newStreak cfg s (failureKeyOf sg code) now) = true ∧
      sg.retryCount < retryLimitFor cfg code then
    { queue := retryCopy sg now retryDelayMs newId :: s.queue,
      repeatedFailureKey := some (failureKeyOf sg code),
      repeatedFailureCount := newStreak cfg s (failureKeyOf sg code) now,
      repeatedFailureLastAtMs := now,
      plannerCooldownUntil := s.plannerCooldownUntil,
      pendingTriggers := s.pendingTriggers }
  else
    { queue := [],
      repeatedFailureKey := some (failureKeyOf sg code),
      repeatedFailureCount := newStreak cfg s (failureKeyOf sg code) now,
      repeatedFailureLastAtMs := now,
      plannerCooldownUntil := now,
      pendingTriggers := ["SUBGOAL_FAILED"] }

/-- One failure event of a retry lineage: the wall clock, the jittered
delay and the fresh subgoal id the controller draws. -/
structure FailEvent where
  now : Nat
  retryDelayMs : Nat
  newId : String
deriving DecidableEq, Repr

/-- Number of retry requeues along a lineage: each event reports a failure
of the current subgoal; when the controller requeues (queue head grows), the
requeued copy is popped and fails at the next event; a hard failure stops
the lineage. -/
def countRequeues (cfg : CtrlConfig) (code : FailureCode) (rb : Bool) :
    CtrlState → RuntimeSubgoal → List FailEvent → Nat
  | _, _, [] => 0
  | s, sg, e :: rest =>
    let s1 := handleFailure cfg s sg code rb e.now e.retryDelayMs e.newId
    match s1.queue with
    | [] => 0
    | r :: q => 1 + countRequeues cfg code rb { s1 with queue := q } r rest

end Ctrl

namespace RL

/-- One hour in milliseconds. -/
def HOUR_MS : Nat := 60 * 60 * 1000

/-- utils/time rollingHourWindowStart: now − 3600000. Timestamps are
nonnegative, so Nat truncation at 0 prunes exactly the same entries as the
JavaScript negative threshold would (none). -/
def rollingHourWindowStart (now : Nat) : Nat := now - HOUR_MS

/-- The botCalls Map of PlannerRateLimiter: insertion-ordered entries of
per-bot timestamp arrays. -/
abbrev BotEntries := List (String × List Nat)

/-- State of class PlannerRateLimiter. -/
structure RLState where
  botCalls : BotEntries
  globalCalls : List Nat
deriving DecidableEq, Repr

/-- A fresh PlannerRateLimiter. -/
def rlInit : RLState := ⟨[], []⟩

/-- this.botCalls.get(botId) ?? []. -/
def getBot (s : RLState) (b : String) : List Nat :=
  ((s.botCalls.find? (fun p => p.1 == b)).map (fun p => p.2)).getD []

/-- The while-shift prune loop: drop leading timestamps below the
threshold. -/
def pruneList (threshold : Nat) (l : List Nat) : List Nat :=
  l.dropWhile (fun ts => ts < threshold)

/-- Pruning every per-bot array and deleting entries left empty. -/
def pruneEntries (threshold : Nat) (entries : BotEntries) : BotEntries :=
  (entries.map (fun p => (p.1, pruneList threshold p.2))).filter
    (fun p => !p.2.isEmpty)

/-- private PlannerRateLimiter.prune(now). -/
def prune (s : RLState) (now : Nat) : RLState :=
  { botCalls := pruneEntries (rollingHourWindowStart now) s.botCalls,
    globalCalls := pruneList (rollingHourWindowStart now) s.globalCalls }

/-- Map.set on botCalls: replace the existing entry in place or append. -/
def setBot (entries : BotEntries) (b : String) (v : List Nat) : BotEntries :=
  if entries.any (fun p => p.1 == b) then
    entries.map (fun p => if p.1 == b then (b, v) else p)
  else entries ++ [(b, v)]

/-- The two denial reasons. -/
inductive LimitReason where
  | BOT_CAP
  | GLOBAL_CAP
deriving DecidableEq, Repr

/-- interface LimitDecision. -/
structure LimitDecision where
  allowed : Bool
  reason : Option LimitReason
  retryAfterMs : Option Nat
deriving DecidableEq, Repr

/-- The limiter caps (constructor arguments). -/
structure RLConfig where
  perBotCap : Nat
  globalCap : Nat
deriving DecidableEq, Repr

/-- PlannerRateLimiter.consume(botId) at wall-clock now: prune, deny
BOT_CAP when the pruned per-bot window is full, else deny GLOBAL_CAP when
the pruned global window is full, else record now in both windows.
Math.max(1000, earliest + 3600000 − now) can only truncate below zero in
JavaScript when the max already yields 1000, so Nat subtraction agrees. -/
def consume (cfg : RLConfig) (s : RLState) (botId : String) (now : Nat) :
    RLState × LimitDecision :=
  let s1 := prune s now
  let bt := getBot s1 botId
  if cfg.perBotCap ≤ bt.length then
    (s1, ⟨false, some LimitReason.BOT_CAP,
      some (max 1000 (bt.headD now + HOUR_MS - now))⟩)
  else if cfg.globalCap ≤ s1.globalCalls.length then
    (s1, ⟨false, some LimitReason.GLOBAL_CAP,
      some (max 1000 (s1.globalCalls.headD now + HOUR_MS - now))⟩)
  else
    ({ botCalls := setBot s1.botCalls botId (bt ++ [now]),
       globalCalls := s1.globalCalls ++ [now] },
     ⟨true, none, none⟩)

/-- PlannerRateLimiter.callsInLastHour(botId?): prunes (mutating the
state), then reports the global or per-bot window length. The source
guards the global branch with `if (!botId)`, a JavaScript FALSY test, so
both a missing argument and the empty-string bot id report the global
window length. -/
def callsInLastHour (s : RLState) (botId : Option String) (now : Nat) :
    RLState × Nat :=
  let s1 := prune s now
  (s1, match botId with
    | none => s1.globalCalls.length
    | some b =>
      if b = "" then s1.globalCalls.length else (getBot s1 b).length)

/-- A call against the limiter: a consume or a callsInLastHour query, with
its wall-clock time. -/
inductive RLOp where
  | consume (botId : String) (now : Nat)
  | query (botId : Option String) (now : Nat)
deriving DecidableEq, Repr

/-- The wall-clock time of a limiter call. -/
def RLOp.time : RLOp → Nat
  | .consume _ n => n
  | .query _ n => n

/-- State transition of one limiter call. -/
def stepRL (cfg : RLConfig) (s : RLState) : RLOp → RLState
  | .consume b n => (consume cfg s b n).1
  | .query b n => (callsInLastHour s b n).1

/-- Run a sequence of limiter calls. -/
def runRL (cfg : RLConfig) (s : RLState) : List RLOp → RLState
  | [] => s
  | op :: ops => runRL cfg (stepRL cfg s op) ops

/-- The (botId, time) pairs of the consume calls that were allowed, in call
order, starting from state s. -/
def allowedLog (cfg : RLConfig) (s : RLState) : List RLOp → List (String × Nat)
  | [] => []
  | RLOp.consume b n :: ops =>
      (if (consume cfg s b n).2.allowed then [(b, n)] else []) ++
        allowedLog cfg (consume cfg s b n).1 ops
  | RLOp.query b n :: ops => allowedLog cfg (callsInLastHour s b n).1 ops

/-- The invariant tying a limiter state to the log of allowed consumes:
entry keys are distinct, entries are nonempty, each window is exactly the
in-order list of allowed times not older than one hour before the clock
`last` of the latest call, times in the log are sorted and bounded by
`last`. -/
structure RLInv (log : List (String × Nat)) (last : Nat) (s : RLState) : Prop where
  keys_nodup : (s.botCalls.map (fun p => p.1)).Nodup
  entries_nonempty : ∀ p ∈ s.botCalls, p.2 ≠ []
  bot_char : ∀ b, getBot s b =
    ((log.filter (fun c => c.1 == b)).map (fun c => c.2)).filter
      (fun t => rollingHourWindowStart last ≤ t)
  global_char : s.globalCalls =
    (log.map (fun c => c.2)).filter (fun t => rollingHourWindowStart last ≤ t)
  log_sorted : (log.map (fun c => c.2)).Sorted (· ≤ ·)
  log_le : ∀ c ∈ log, c.2 ≤ last

end RL

/-- A block position. -/
structure Vec3 where
  x : Int
  y : Int
  z : Int
deriving DecidableEq, Repr

/-- A nearby hostile entry of SnapshotV1. -/
structure HostileInfo where
  type : String
  distance : Int
deriving DecidableEq, Repr

/-- A nearby resource / point-of-interest entry of SnapshotV1. -/
structure ResourceInfo where
  type : String
  distance : Int
  position : Vec3
deriving DecidableEq, Repr

/-- inventory_summary of SnapshotV1 (records modelled as insertion-ordered
association lists). -/
structure InventorySummary where
  food_total : Int
  tools : List (String × Int)
  blocks : Int
  key_items : List (String × Int)
deriving DecidableEq, Repr

/-- nearby_summary of SnapshotV1. -/
structure NearbySummary where
  hostiles : List HostileInfo
  resources : List ResourceInfo
  points_of_interest : List ResourceInfo
deriving DecidableEq, Repr

/-- player of SnapshotV1. -/
structure PlayerInfo where
  position : Vec3
  dimension : String
  health : Int
  hunger : Int
  status_effects : List String
deriving DecidableEq, Repr

/-- SnapshotV1 restricted to the fields the fallback planner and the
feasibility guard read (bot_id/time/task_context are never consulted by
them). -/
structure SnapshotV1 where
  bot_id : String
  player : PlayerInfo
  inventory_summary : InventorySummary
  nearby_summary : NearbySummary
deriving DecidableEq, Repr

namespace Guard

/-- An entry of the injected minecraft-data items table. -/
structure CatalogItem where
  id : Nat
  name : String
deriving DecidableEq, Repr

/-- An entry of the injected minecraft-data blocks table: drops and
harvestTools hold item ids; an absent harvestTools record and an empty one
behave identically in the source, so both are the empty list. -/
structure CatalogBlock where
  id : Nat
  name : String
  drops : List Nat
  harvestTools : List Nat
deriving DecidableEq, Repr

/-- One slot of a recipe: a plain item id, an object with id and optional
count, or null. -/
inductive RecipeIngredient where
  | idNum (id : Nat)
  | idObj (id : Nat) (count : Option Int)
  | nullEntry
deriving DecidableEq, Repr

/-- A minecraft-data recipe: an optional shaped grid, an optional shapeless
ingredient list, and the optional result count. -/
structure Recipe where
  inShape : Option (List (List RecipeIngredient))
  ingredients : Option (List RecipeIngredient)
  resultCount : Option Int
deriving DecidableEq, Repr

/-- The injected static game-data catalog (stands for getMcData(version)). -/
structure Catalog where
  items : List CatalogItem
  blocks : List CatalogBlock
  recipes : List (Nat × List Recipe)
deriving DecidableEq, Repr

/-- mcData.itemsByName lookup. -/
def itemsByName (cat : Catalog) (name : String) : Option CatalogItem :=
  cat.items.find? (fun i => i.name == name)

/-- mcData.items[id] lookup. -/
def itemById (cat : Catalog) (id : Nat) : Option CatalogItem :=
  cat.items.find? (fun i => i.id == id)

/-- mcData.blocksByName lookup. -/
def blocksByName (cat : Catalog) (name : String) : Option CatalogBlock :=
  cat.blocks.find? (fun b => b.name == name)

/-- mcData.blocks[id] lookup. -/
def blockById (cat : Catalog) (id : Nat) : Option CatalogBlock :=
  cat.blocks.find? (fun b => b.id == id)

/-- mcData.recipes[id] ?? []. -/
def recipesFor (cat : Catalog) (id : Nat) : List Recipe :=
  (((cat.recipes.find? (fun p => p.1 == id)).map (fun p => p.2))).getD []

/-- subgoal-guard's positiveInt on a params value (Math.floor is the
identity on the Int model). -/
def positiveInt (value : Option Value) (fallback : Int) : Int :=
  match jsNumberOpt value with
  | none => fallback
  | some parsed => if parsed ≤ 0 then fallback else parsed

/-- positiveInt applied to an optional recipe count field. -/
def positiveIntOfInt (v : Option Int) (fallback : Int) : Int :=
  match v with
  | none => fallback
  | some n => if n ≤ 0 then fallback else n

/-- Map.set-or-increment on an insertion-ordered count table. -/
def bumpEntry (l : List (String × Int)) (k : String) (c : Int) : List (String × Int) :=
  if l.any (fun p => p.1 == k) then
    l.map (fun p => if p.1 == k then (p.1, p.2 + c) else p)
  else l ++ [(k, c)]

/-- Same for Nat-keyed tables (ingredient ids). -/
def bumpEntryNat (l : List (Nat × Int)) (k : Nat) (c : Int) : List (Nat × Int) :=
  if l.any (fun p => p.1 == k) then
    l.map (fun p => if p.1 == k then (p.1, p.2 + c) else p)
  else l ++ [(k, c)]

/-- Count lookup with 0 default. -/
def getCount (l : List (String × Int)) (name : String) : Int :=
  (((l.find? (fun p => p.1 == name)).map (fun p => p.2))).getD 0

/-- buildProjectedInventory: key_items then tools, summed per name. -/
def buildProjectedInventory (snap : SnapshotV1) : List (String × Int) :=
  let p1 := snap.inventory_summary.key_items.foldl
    (fun acc kv => bumpEntry acc kv.1 kv.2) []
  snap.inventory_summary.tools.foldl (fun acc kv => bumpEntry acc kv.1 kv.2) p1

/-- Keep the smaller distance per type (set when absent or closer). -/
def setMinDistance (l : List (String × Int)) (key : String) (d : Int) :
    List (String × Int) :=
  match l.find? (fun p => p.1 == key) with
  | none => l ++ [(key, d)]
  | some p =>
    if d < p.2 then l.map (fun q => if q.1 == key then (q.1, d) else q) else l

/-- buildNearbyResourceDistance. -/
def buildNearbyResourceDistance (snap : SnapshotV1) : List (String × Int) :=
  snap.nearby_summary.resources.foldl (fun acc r => setMinDistance acc r.type r.distance) []

/-- buildNearbyPoiDistance. -/
def buildNearbyPoiDistance (snap : SnapshotV1) : List (String × Int) :=
  snap.nearby_summary.points_of_interest.foldl
    (fun acc r => setMinDistance acc r.type r.distance) []

/-- hasNearbyPoi: the recorded distance exists and is within maxDistance. -/
def hasNearbyPoi (poiDist : List (String × Int)) (poiName : String)
    (maxDistance : Int) : Bool :=
  match (poiDist.find? (fun p => p.1 == poiName)).map (fun p => p.2) with
  | none => false
  | some d => decide (d ≤ maxDistance)

/-- hasItem over the projected inventory. -/
def hasItem (projected : List (String × Int)) (itemName : String) (count : Int) : Bool :=
  decide (count ≤ getCount projected itemName)

/-- The tool-material ranking of parseToolRank. -/
def toolMaterials : List (String × Nat) :=
  [("wooden", 0), ("stone", 1), ("iron", 2), ("diamond", 3), ("netherite", 4),
   ("golden", 5)]

/-- The tool kinds matched by parseToolRank's pattern. -/
def toolKinds : List String := ["pickaxe", "axe", "shovel", "hoe"]

/-- Number.MAX_SAFE_INTEGER. -/
def MAX_SAFE_INTEGER : Nat := 9007199254740991

/-- parseToolRank: whether the name matches material_kind and the
material's rank. -/
def parseToolRank (itemName : String) : Bool × Nat :=
  match toolMaterials.find? (fun m => toolKinds.any (fun t => itemName == m.1 ++ "_" ++ t)) with
  | some m => (true, m.2)
  | none => (false, MAX_SAFE_INTEGER)

/-- localeCompare on the ASCII names the catalog uses: the sign of the
lexicographic comparison. -/
def strCompare (a b : String) : Int :=
  match compare a b with
  | Ordering.lt => -1
  | Ordering.eq => 0
  | Ordering.gt => 1

/-- Insert keeping earlier equal-or-smaller elements in front (walks past y
while y sorts before-or-equal x). -/
def insertStable (le : α → α → Bool) (x : α) : List α → List α
  | [] => [x]
  | y :: ys => if le y x then y :: insertStable le x ys else x :: y :: ys

/-- A stable sort by a JavaScript-style comparator, modelling the ES2019
stable Array.prototype.sort. -/
def sortByCmp (cmp : α → α → Int) (l : List α) : List α :=
  l.foldl (fun acc x => insertStable (fun y z => decide (cmp y z ≤ 0)) x acc) []

/-- The comparator over tool candidates: known pattern first, then material
rank, then name. -/
def toolCandidateCmp (left right : String) : Int :=
  let a := parseToolRank left
  let b := parseToolRank right
  if a.1 ≠ b.1 then (if a.1 then -1 else 1)
  else if a.2 ≠ b.2 then (a.2 : Int) - (b.2 : Int)
  else strCompare left right

/-- requiredToolForBlock: the lowest-ranked harvest tool name, if the block
demands one. -/
def requiredToolForBlock (cat : Catalog) (blockName : String) : Option String :=
  match blocksByName cat blockName with
  | none => none
  | some block =>
    if block.harvestTools.isEmpty then none
    else
      let candidates := block.harvestTools.filterMap
        (fun id => (itemById cat id).map (fun i => i.name))
      if candidates.isEmpty then none
      else (sortByCmp toolCandidateCmp candidates).head?

/-- recipeNeedsTable: a 3x3 grid (rows or columns over 2) or more than four
shapeless ingredients. -/
def recipeNeedsTable (recipe : Recipe) : Bool :=
  match recipe.inShape with
  | some rows =>
    let columns := rows.foldl (fun mx row => max mx row.length) 0
    decide (rows.length > 2) || decide (columns > 2)
  | none =>
    match recipe.ingredients with
    | some ing => decide (ing.length > 4)
    | none => false

/-- pushValue of parseIngredients: accumulate units per ingredient id. -/
def pushIngredient (byId : List (Nat × Int)) : RecipeIngredient → List (Nat × Int)
  | RecipeIngredient.nullEntry => byId
  | RecipeIngredient.idNum id => bumpEntryNat byId id 1
  | RecipeIngredient.idObj id cnt => bumpEntryNat byId id (positiveIntOfInt cnt 1)

/-- The item name for an ingredient id: items[id].name, else the item named
like the block with that id. -/
def ingredientName (cat : Catalog) (id : Nat) : Option String :=
  match itemById cat id with
  | some i => some i.name
  | none =>
    match blockById cat id with
    | some blk => (itemsByName cat blk.name).map (fun i => i.name)
    | none => none

/-- parseIngredients: ids from the shapeless list then the shaped grid,
translated to names. -/
def parseIngredients (cat : Catalog) (recipe : Recipe) : List (String × Int) :=
  let byId1 : List (Nat × Int) :=
    match recipe.ingredients with
    | some ings => ings.foldl (fun acc i => pushIngredient acc i) []
    | none => []
  let byId2 : List (Nat × Int) :=
    match recipe.inShape with
    | some rows => rows.foldl (fun acc row => row.foldl (fun a i => pushIngredient a i) acc) byId1
    | none => byId1
  byId2.foldl (fun byName idc =>
    match ingredientName cat idc.1 with
    | none => byName
    | some nm => bumpEntry byName nm idc.2) []

/-- parseResultCount. -/
def parseResultCount (recipe : Recipe) : Int :=
  positiveIntOfInt recipe.resultCount 1

/-- The ranked form of a recipe inside pickRecipePlan. -/
structure RankedRecipe where
  recipe : Recipe
  ingredients : List (String × Int)
  ingredientUnits : Int
  resultCount : Int
  needsTable : Bool
  score : Int
deriving DecidableEq, Repr

/-- interface RecipePlan. -/
structure RecipePlan where
  recipe : Recipe
  ingredients : List (String × Int)
  resultCount : Int
  needsTable : Bool
  ingredientUnits : Int
deriving DecidableEq, Repr

/-- The recipe comparator: score, then table-free, then fewer units. -/
def rankCmp (a b : RankedRecipe) : Int :=
  if a.score ≠ b.score then a.score - b.score
  else if a.needsTable ≠ b.needsTable then (if a.needsTable then 1 else -1)
  else a.ingredientUnits - b.ingredientUnits

/-- pickRecipePlan: rank the item's recipes by missing units plus a
penalty of 3 when a table is needed but inaccessible, and take the best. -/
def pickRecipePlan (cat : Catalog) (projected poiDist : List (String × Int))
    (itemName : String) : Option RecipePlan :=
  match itemsByName cat itemName with
  | none => none
  | some item =>
    let recipes := recipesFor cat item.id
    if recipes.isEmpty then none
    else
      let tableAccessible := hasItem projected "crafting_table" 1 ||
        hasNearbyPoi poiDist "crafting_table" 8
      let ranked := sortByCmp rankCmp (recipes.map (fun recipe =>
        let ingredients := parseIngredients cat recipe
        let ingredientUnits := (ingredients.map (fun p => p.2)).foldl (· + ·) 0
        let missingUnits := ingredients.foldl
          (fun sum p => sum + max 0 (p.2 - getCount projected p.1)) 0
        let needsTable := recipeNeedsTable recipe
        let tablePenalty : Int := if needsTable && !tableAccessible then 3 else 0
        ⟨recipe, ingredients, ingredientUnits, parseResultCount recipe, needsTable,
         missingUnits + tablePenalty⟩))
      (ranked.head?).map (fun best =>
        ⟨best.recipe, best.ingredients, best.resultCount, best.needsTable,
         best.ingredientUnits⟩)

/-- sourceBlocksForItem: the block named like the item plus every block
whose drops include the item's id, first-insertion order (Set semantics). -/
def sourceBlocksForItem (cat : Catalog) (itemName : String) : List String :=
  let names0 : List String := if (blocksByName cat itemName).isSome then [itemName] else []
  match itemsByName cat itemName with
  | none => names0
  | some item =>
    cat.blocks.foldl (fun names block =>
      if block.drops.contains item.id && !names.contains block.name then
        names ++ [block.name]
      else names) names0

/-- A candidate source block with its mining feasibility and distance. -/
structure ScoredBlock where
  blockName : String
  canMineNow : Bool
  distance : Int
deriving DecidableEq, Repr

/-- The source-block comparator: mineable-now first, then distance, then
name. -/
def chooseCmp (a b : ScoredBlock) : Int :=
  if a.canMineNow ≠ b.canMineNow then (if a.canMineNow then -1 else 1)
  else if a.distance ≠ b.distance then a.distance - b.distance
  else strCompare a.blockName b.blockName

/-- chooseSourceBlock. -/
def chooseSourceBlock (cat : Catalog) (projected resourceDist : List (String × Int))
    (itemName : String) : Option String :=
  let candidates := sourceBlocksForItem cat itemName
  if candidates.isEmpty then none
  else
    let scored := sortByCmp chooseCmp (candidates.map (fun blockName =>
      let requiredTool := requiredToolForBlock cat blockName
      let canMineNow := match requiredTool with
        | none => true
        | some t => hasItem projected t 1
      let distance := (((resourceDist.find? (fun p => p.1 == blockName)).map
        (fun p => p.2))).getD 9999
      ⟨blockName, canMineNow, distance⟩))
    (scored.head?).map (fun s => s.blockName)

/-- primaryDroppedItemForBlock. -/
def primaryDroppedItemForBlock (cat : Catalog) (blockName : String) : Option String :=
  match blocksByName cat blockName with
  | none => none
  | some block =>
    match block.drops.head? with
    | some firstDrop =>
      match itemById cat firstDrop with
      | some item => some item.name
      | none => if (itemsByName cat blockName).isSome then some blockName else none
    | none => if (itemsByName cat blockName).isSome then some blockName else none

/-- targetNameFromSubgoal: String(item ?? block ?? resource ??
resource_type ?? type ?? ""). -/
def targetNameFromSubgoal (sg : PlannerSubgoal) : String :=
  jsString ((coalesce (getParam sg.params "item") (coalesce (getParam sg.params "block")
    (coalesce (getParam sg.params "resource") (coalesce (getParam sg.params "resource_type")
      (coalesce (getParam sg.params "type") (some (Value.str ""))))))).getD (Value.str ""))

/-- resolveBlockFromTarget. -/
def resolveBlockFromTarget (cat : Catalog) (projected resourceDist : List (String × Int))
    (targetName : String) : Option String :=
  if targetName = "" then none
  else if (blocksByName cat targetName).isSome then some targetName
  else chooseSourceBlock cat projected resourceDist targetName

/-- The guard state threaded through planning: the projected inventory and
the accumulated notes. -/
structure GuardSt where
  projected : List (String × Int)
  notes : List String
deriving DecidableEq, Repr

/-- Ceiling division for the positive counts the planner uses. -/
def ceilDiv (a b : Int) : Int := (a + b - 1) / b

/-- planAcquireItem with an explicit structural fuel. The source guards the
recursion with `depth > 8`; every call keeps fuel = 9 − depth, so the
fuel-exhausted branch is unreachable (when fuel is 0, depth is above 8 and
the depth guard has already returned). The stack set is passed by adding
the item for the recursive calls, matching the add/delete bracketing. -/
def planAcquireItemF (cat : Catalog) (rd poi : List (String × Int)) :
    Nat → String → Int → GuardSt → List String → Nat →
      List PlannerSubgoal × GuardSt
  | fuel, itemName, desiredCount, st, stack, depth =>
    if desiredCount ≤ 0 ∨ hasItem st.projected itemName desiredCount then ([], st)
    else if depth > 8 ∨ stack.contains itemName then
      ([], { st with notes := st.notes ++ ["dependency_cycle_or_depth_limit_" ++ itemName] })
    else
      let shortage := max 0 (desiredCount - getCount st.projected itemName)
      if shortage = 0 then ([], st)
      else
        match fuel with
        | 0 => ([], st)
        | fuel' + 1 =>
          match pickRecipePlan cat st.projected poi itemName with
          | some recipePlan =>
            let tableRes :=
              if recipePlan.needsTable && !(itemName == "crafting_table") &&
                  !(hasItem st.projected "crafting_table" 1 ||
                    hasNearbyPoi poi "crafting_table" 8) then
                planAcquireItemF cat rd poi fuel' "crafting_table" 1 st
                  (itemName :: stack) (depth + 1)
              else ([], st)
            let craftsNeeded := max 1 (ceilDiv shortage recipePlan.resultCount)
            let ingRes := recipePlan.ingredients.foldl
              (fun (acc : List PlannerSubgoal × GuardSt) ing =>
                let r := planAcquireItemF cat rd poi fuel' ing.1
                  (ing.2 * craftsNeeded) acc.2 (itemName :: stack) (depth + 1)
                (acc.1 ++ r.1, r.2))
              ([], tableRes.2)
            let craftSub : PlannerSubgoal :=
              ⟨SubgoalName.craft,
               [("item", Value.str itemName), ("count", Value.num shortage)],
               [("item_count_gte", Value.num desiredCount)]⟩
            let produced := craftsNeeded * recipePlan.resultCount
            let projF := bumpEntry ingRes.2.projected itemName produced
            (tableRes.1 ++ ingRes.1 ++ [craftSub], { ingRes.2 with projected := projF })
          | none =>
            match chooseSourceBlock cat st.projected rd itemName with
            | none =>
              ([], { st with notes := st.notes ++ ["unresolved_dependency_" ++ itemName] })
            | some sourceBlock =>
              let toolRes :=
                match requiredToolForBlock cat sourceBlock with
                | some requiredTool =>
                  if hasItem st.projected requiredTool 1 then ([], st)
                  else planAcquireItemF cat rd poi fuel' requiredTool 1 st
                    (itemName :: stack) (depth + 1)
                | none => ([], st)
              let gotoSub : PlannerSubgoal :=
                ⟨SubgoalName.goto_nearest,
                 [("block", Value.str sourceBlock), ("max_distance", Value.num 64)],
                 [("found", Value.boolean true)]⟩
              let collectSub : PlannerSubgoal :=
                ⟨SubgoalName.collect,
                 [("item", Value.str itemName), ("count", Value.num shortage)],
                 [("item_count_gte", Value.num desiredCount)]⟩
              (toolRes.1 ++ [gotoSub, collectSub],
               { toolRes.2 with projected := bumpEntry toolRes.2.projected itemName shortage })

/-- planAcquireItem as the source calls it (the fuel shadow starts at
9 − depth; external callers use the default stack ∅ and depth 0). -/
def planAcquireItem (cat : Catalog) (rd poi : List (String × Int))
    (itemName : String) (desiredCount : Int) (st : GuardSt)
    (stack : List String) (depth : Nat) : List PlannerSubgoal × GuardSt :=
  planAcquireItemF cat rd poi (9 - depth) itemName desiredCount st stack depth

/-- applyProjectedOutcome. -/
def applyProjectedOutcome (cat : Catalog) (rd : List (String × Int))
    (projected : List (String × Int)) (sg : PlannerSubgoal) :
    List (String × Int) :=
  if sg.name = SubgoalName.craft ∨ sg.name = SubgoalName.withdraw then
    let itemName := jsString ((coalesce (getParam sg.params "item")
      (coalesce (getParam sg.params "type") (some (Value.str "")))).getD (Value.str ""))
    if itemName = "" then projected
    else
      let count := positiveInt (coalesce (getParam sg.params "count")
        (coalesce (getParam sg.params "amount") (getParam sg.params "qty"))) 1
      bumpEntry projected itemName count
  else if sg.name = SubgoalName.collect then
    let targetName := targetNameFromSubgoal sg
    let blockName := resolveBlockFromTarget cat projected rd targetName
    let collectedItem : Option String :=
      match (match blockName with
             | some bn => primaryDroppedItemForBlock cat bn
             | none => none) with
      | some x => some x
      | none => if (itemsByName cat targetName).isSome then some targetName else none
    match collectedItem with
    | none => projected
    | some item =>
      let count := positiveInt (coalesce (getParam sg.params "count")
        (coalesce (getParam sg.params "amount") (getParam sg.params "qty"))) 1
      bumpEntry projected item count
  else projected

/-- ensureCraftPrerequisites: the table subplan (fresh stack/depth) then
one acquisition subplan per missing ingredient quantity. -/
def ensureCraftPrerequisites (cat : Catalog) (rd poi : List (String × Int))
    (craftSubgoal : PlannerSubgoal) (st : GuardSt) :
    List PlannerSubgoal × GuardSt :=
  let itemName := jsString ((coalesce (getParam craftSubgoal.params "item")
    (coalesce (getParam craftSubgoal.params "output")
      (coalesce (getParam craftSubgoal.params "result")
        (coalesce (getParam craftSubgoal.params "type")
          (some (Value.str "")))))).getD (Value.str ""))
  if itemName = "" then ([], st)
  else
    let count := positiveInt (coalesce (getParam craftSubgoal.params "count")
      (coalesce (getParam craftSubgoal.params "amount")
        (getParam craftSubgoal.params "qty"))) 1
    match itemsByName cat itemName with
    | none => ([], st)
    | some _ =>
      match pickRecipePlan cat st.projected poi itemName with
      | none => ([], st)
      | some recipePlan =>
        let craftsNeeded := max 1 (ceilDiv count recipePlan.resultCount)
        let tableRes :=
          if recipePlan.needsTable && !(itemName == "crafting_table") &&
              !(hasItem st.projected "crafting_table" 1 ||
                hasNearbyPoi poi "crafting_table" 8) then
            planAcquireItem cat rd poi "crafting_table" 1 st [] 0
          else ([], st)
        recipePlan.ingredients.foldl
          (fun (acc : List PlannerSubgoal × GuardSt) ing =>
            let r := planAcquireItem cat rd poi ing.1 (ing.2 * craftsNeeded) acc.2 [] 0
            (acc.1 ++ r.1, r.2))
          tableRes

/-- parseDesiredCountFromSubgoal. -/
def parseDesiredCountFromSubgoal (sg : PlannerSubgoal) : Int :=
  positiveInt (coalesce (getParam sg.params "count")
    (coalesce (getParam sg.params "amount") (getParam sg.params "qty"))) 1

/-- makeExploreFallback. An empty target makes resource_hint undefined,
which JSON-stringifies to an absent key, modelled by omitting it. -/
def makeExploreFallback (target : String) : PlannerSubgoal :=
  ⟨SubgoalName.explore,
   [("radius", Value.num 28), ("return_to_base", Value.boolean false)] ++
     (if target = "" then [] else [("resource_hint", Value.str target)]) ++
     [("max_waypoints", Value.num 3), ("attempt_timeout_ms", Value.num 10000)],
   [("explored_points_min", Value.num 1)]⟩

/-- Object-spread override: replace the key in place or append it. -/
def setParam (params : List (String × Value)) (key : String) (v : Value) :
    List (String × Value) :=
  if params.any (fun p => p.1 == key) then
    params.map (fun p => if p.1 == key then (p.1, v) else p)
  else params ++ [(key, v)]

/-- The main loop of enforceSubgoalPrerequisites, threading the guard
state and producing the guarded sequence before deduplication. -/
def enforceLoop (cat : Catalog) (rd poi : List (String × Int)) :
    List PlannerSubgoal → GuardSt → List PlannerSubgoal × GuardSt
  | [], st => ([], st)
  | sg :: rest, st =>
    if sg.name = SubgoalName.collect ∨ sg.name = SubgoalName.goto_nearest then
      let target := targetNameFromSubgoal sg
      match resolveBlockFromTarget cat st.projected rd target with
      | none =>
        if sg.name = SubgoalName.collect ∧ target ≠ "" then
          let desiredCount := parseDesiredCountFromSubgoal sg
          let rep := planAcquireItem cat rd poi target desiredCount st [] 0
          if rep.1 ≠ [] then
            let st2 := { rep.2 with notes := rep.2.notes ++
              ["replaced_unresolved_collect_" ++ target] }
            let tail := enforceLoop cat rd poi rest st2
            (rep.1 ++ tail.1, tail.2)
          else
            let st2 := { rep.2 with notes := rep.2.notes ++
              ["replaced_unresolved_" ++ subgoalNameKey sg.name ++ "_" ++
                (if target = "" then "unknown" else target)] }
            let tail := enforceLoop cat rd poi rest st2
            (makeExploreFallback target :: tail.1, tail.2)
        else
          let st2 := { st with notes := st.notes ++
            ["replaced_unresolved_" ++ subgoalNameKey sg.name ++ "_" ++
              (if target = "" then "unknown" else target)] }
          let tail := enforceLoop cat rd poi rest st2
          (makeExploreFallback target :: tail.1, tail.2)
      | some blockName =>
        let toolRes :=
          match requiredToolForBlock cat blockName with
          | some requiredTool =>
            if hasItem st.projected requiredTool 1 then ([], st)
            else
              let tp := planAcquireItem cat rd poi requiredTool 1 st [] 0
              (tp.1, { tp.2 with notes := tp.2.notes ++
                ["inserted_tool_prereq_" ++ requiredTool ++ "_for_" ++ blockName] })
          | none => ([], st)
        let canonical : PlannerSubgoal :=
          { sg with params := setParam sg.params "block" (Value.str blockName) }
        let projC := applyProjectedOutcome cat rd toolRes.2.projected canonical
        let st2 := { toolRes.2 with projected := projC }
        let tail := enforceLoop cat rd poi rest st2
        (toolRes.1 ++ canonical :: tail.1, tail.2)
    else if sg.name = SubgoalName.craft then
      let itemName := jsString ((coalesce (getParam sg.params "item")
        (coalesce (getParam sg.params "output")
          (coalesce (getParam sg.params "result")
            (coalesce (getParam sg.params "type")
              (some (Value.str "")))))).getD (Value.str ""))
      let desiredCount := parseDesiredCountFromSubgoal sg
      if itemName = "" then
        let st2 := { st with notes := st.notes ++ ["dropped_invalid_craft_without_item"] }
        enforceLoop cat rd poi rest st2
      else if (pickRecipePlan cat st.projected poi itemName).isNone then
        let rep := planAcquireItem cat rd poi itemName desiredCount st [] 0
        if rep.1 ≠ [] then
          let st2 := { rep.2 with notes := rep.2.notes ++
            ["replaced_uncraftable_craft_" ++ itemName] }
          let tail := enforceLoop cat rd poi rest st2
          (rep.1 ++ tail.1, tail.2)
        else
          let st2 := { rep.2 with notes := rep.2.notes ++
            ["replaced_unresolved_craft_" ++ itemName] }
          let tail := enforceLoop cat rd poi rest st2
          (makeExploreFallback itemName :: tail.1, tail.2)
      else
        let pre := ensureCraftPrerequisites cat rd poi sg st
        let projS := applyProjectedOutcome cat rd pre.2.projected sg
        let st2 := { pre.2 with projected := projS }
        let tail := enforceLoop cat rd poi rest st2
        (pre.1 ++ sg :: tail.1, tail.2)
    else
      let st2 := { st with projected := applyProjectedOutcome cat rd st.projected sg }
      let tail := enforceLoop cat rd poi rest st2
      (sg :: tail.1, tail.2)

/-- The dedupe loop of dedupeAdjacentSubgoals: drop a subgoal equal to the
last kept one (name, params and success_criteria, i.e. full structural
equality of the modelled fields). -/
def dedupeLoop : List PlannerSubgoal → List PlannerSubgoal → Nat →
    List PlannerSubgoal × Nat
  | output, [], dropped => (output, dropped)
  | output, sg :: rest, dropped =>
    match output.getLast? with
    | none => dedupeLoop (output ++ [sg]) rest dropped
    | some prev =>
      if prev = sg then dedupeLoop output rest (dropped + 1)
      else dedupeLoop (output ++ [sg]) rest dropped

/-- dedupeAdjacentSubgoals. -/
def dedupeAdjacentSubgoals (subgoals : List PlannerSubgoal) (notes : List String) :
    List PlannerSubgoal × List String :=
  let res := dedupeLoop [] subgoals 0
  (res.1, if res.2 > 0 then
    notes ++ ["deduped_adjacent_subgoals_" ++ toString res.2] else notes)

/-- interface GuardResult. -/
structure GuardResult where
  subgoals : List PlannerSubgoal
  notes : List String
deriving DecidableEq, Repr

/-- enforceSubgoalPrerequisites (the catalog stands for
getMcData(mcVersion)). -/
def enforceSubgoalPrerequisites (cat : Catalog) (snap : SnapshotV1)
    (subgoals : List PlannerSubgoal) : GuardResult :=
  let rd := buildNearbyResourceDistance snap
  let poi := buildNearbyPoiDistance snap
  let res := enforceLoop cat rd poi subgoals ⟨buildProjectedInventory snap, []⟩
  let dres := dedupeAdjacentSubgoals res.1 res.2.notes
  ⟨dres.1, dres.2⟩

/-- The capability-gap scan: nearest-first resources whose required tool is
missing, as "resource->tool" keys, deduplicated, capped at 8. -/
def gapsLoop (cat : Catalog) (projected : List (String × Int)) :
    List ResourceInfo → List String → List String → List String
  | [], _, gaps => gaps
  | r :: rest, seen, gaps =>
    match requiredToolForBlock cat r.type with
    | none => gapsLoop cat projected rest seen gaps
    | some tool =>
      if hasItem projected tool 1 then gapsLoop cat projected rest seen gaps
      else
        let key := r.type ++ "->" ++ tool
        if seen.contains key then gapsLoop cat projected rest seen gaps
        else
          let gaps2 := gaps ++ [key]
          if gaps2.length ≥ 8 then gaps2
          else gapsLoop cat projected rest (seen ++ [key]) gaps2

/-- buildCapabilityGaps. -/
def buildCapabilityGaps (cat : Catalog) (snap : SnapshotV1)
    (projected : List (String × Int)) : List String :=
  gapsLoop cat projected
    (sortByCmp (fun a b => a.distance - b.distance) snap.nearby_summary.resources) [] []

/-- parseCapabilityGap: split at the first "->", demanding nonempty
resource and tool parts. -/
def parseCapabilityGap (gap : String) : Option (String × String) :=
  match gap.splitOn "->" with
  | [] => none
  | [_] => none
  | r :: rest =>
    let tool := String.intercalate "->" rest
    if r = "" ∨ tool = "" then none else some (r, tool)

/-- interface AutonomousPlan. -/
structure AutonomousPlan where
  reason : String
  subgoals : List PlannerSubgoal
deriving DecidableEq, Repr

/-- The gap-unlock loop of buildAutonomousProgressionPlan: return the first
tool whose acquisition plan is nonempty. -/
def gapUnlockLoop (cat : Catalog) (rd poi : List (String × Int)) :
    List String → GuardSt → Option (String × List PlannerSubgoal) × GuardSt
  | [], st => (none, st)
  | gap :: rest, st =>
    match parseCapabilityGap gap with
    | none => gapUnlockLoop cat rd poi rest st
    | some rt =>
      if hasItem st.projected rt.2 1 then gapUnlockLoop cat rd poi rest st
      else
        let res := planAcquireItem cat rd poi rt.2 1 st [] 0
        if res.1 ≠ [] then
          (some ("unlock_" ++ rt.2 ++ "_for_" ++ rt.1, res.1), res.2)
        else gapUnlockLoop cat rd poi rest res.2

/-- An actionable resource candidate of the progression plan. -/
structure ProgressionCandidate where
  resource : ResourceInfo
  itemName : String
  actionable : Bool
  current : Int
  shortage : Int
deriving DecidableEq, Repr

/-- The candidate loop: plan acquisition of the first candidate yielding a
nonempty plan. -/
def candidateLoop (cat : Catalog) (rd poi : List (String × Int))
    (desiredIncrement : Int) :
    List ProgressionCandidate → GuardSt → Option AutonomousPlan
  | [], _ => none
  | c :: rest, st =>
    let desired := max desiredIncrement (c.current + c.shortage)
    let res := planAcquireItem cat rd poi c.itemName desired st [] 0
    if res.1 ≠ [] then some ⟨"acquire_" ++ c.itemName, res.1⟩
    else candidateLoop cat rd poi desiredIncrement rest res.2

/-- buildAutonomousProgressionPlan: close the first unlockable capability
gap; else acquire the most-needed nearest actionable resource; else
explore. -/
def buildAutonomousProgressionPlan (cat : Catalog) (snap : SnapshotV1)
    (desiredIncrement : Int) : AutonomousPlan :=
  let rd := buildNearbyResourceDistance snap
  let poi := buildNearbyPoiDistance snap
  let st0 : GuardSt := ⟨buildProjectedInventory snap, []⟩
  let gaps := buildCapabilityGaps cat snap st0.projected
  match gapUnlockLoop cat rd poi gaps st0 with
  | (some rs, _) => ⟨rs.1, rs.2⟩
  | (none, st1) =>
    let sortedResources := sortByCmp (fun a b => a.distance - b.distance)
      (snap.nearby_summary.resources.filter (fun r => !(r.type == "water")))
    let candidates := sortByCmp
      (fun l r => if l.shortage ≠ r.shortage then r.shortage - l.shortage
        else l.resource.distance - r.resource.distance)
      ((sortedResources.filterMap (fun r =>
        match primaryDroppedItemForBlock cat r.type with
        | none => none
        | some itemName =>
          let requiredTool := requiredToolForBlock cat r.type
          let actionable := match requiredTool with
            | none => true
            | some t => hasItem st1.projected t 1
          let current := getCount st1.projected itemName
          let shortage := max 0 (desiredIncrement - current)
          some ⟨r, itemName, actionable, current, shortage⟩)).filter
        (fun c => c.actionable && decide (c.shortage > 0)))
    match candidateLoop cat rd poi desiredIncrement candidates st1 with
    | some plan => plan
    | none =>
      ⟨"explore_for_resources",
       [⟨SubgoalName.explore,
         [("radius", Value.num 26), ("return_to_base", Value.boolean false)],
         [("explored_points_min", Value.num 2)]⟩]⟩

end Guard

namespace FP

/-- interface BasePosition of fallback-planner.ts. -/
structure BasePosition where
  x : Int
  y : Int
  z : Int
  radius : Int
deriving DecidableEq, Repr

/-- PlannerResponseV1 restricted to the fields these modules write
(role_suggestion/constraints are never set by them). -/
structure PlannerResponseV1 where
  next_goal : String
  subgoals : List PlannerSubgoal
  risk_flags : List String
deriving DecidableEq, Repr

/-- The goto-base subgoal both survival branches start with. -/
def gotoBaseSubgoal (base : BasePosition) : PlannerSubgoal :=
  ⟨SubgoalName.goto,
   [("x", Value.num base.x), ("y", Value.num base.y), ("z", Value.num base.z),
    ("range", Value.num base.radius)],
   [("within_range", Value.num base.radius)]⟩

/-- hostiles.length > 0 && hostiles[0] && hostiles[0].distance < 10. -/
def headHostileWithin10 (hostiles : List HostileInfo) : Bool :=
  match hostiles with
  | h :: _ => decide (h.distance < 10)
  | [] => false

/-- blocks + Σ key_items. -/
def inventoryLoad (snap : SnapshotV1) : Int :=
  snap.inventory_summary.blocks +
    (snap.inventory_summary.key_items.map (fun p => p.2)).foldl (· + ·) 0

/-- buildFallbackPlan (the catalog stands for the mcVersion argument). -/
def buildFallbackPlan (cat : Guard.Catalog) (snap : SnapshotV1) (reason : String)
    (base : BasePosition) : PlannerResponseV1 :=
  if snap.player.health ≤ 8 then
    ⟨"stabilize_and_recover",
     [gotoBaseSubgoal base,
      ⟨SubgoalName.combat_guard,
       [("radius", Value.num 12), ("duration_ms", Value.num 6000)],
       [("no_hostiles_within", Value.num 12)]⟩],
     [reason, "LOW_HEALTH"]⟩
  else if 120 ≤ inventoryLoad snap then
    ⟨"deposit_inventory",
     [gotoBaseSubgoal base,
      ⟨SubgoalName.deposit,
       [("strategy", Value.str "all_non_essential")],
       [("free_slots_min", Value.num 16)]⟩],
     [reason, "INVENTORY_PRESSURE"]⟩
  else if headHostileWithin10 snap.nearby_summary.hostiles then
    ⟨"clear_local_threats",
     [⟨SubgoalName.combat_engage,
       [("max_targets", Value.num 2), ("max_distance", Value.num 18)],
       [("hostiles_within", Value.num 10), ("equals", Value.num 0)]⟩],
     [reason, "HOSTILES_NEARBY"]⟩
  else
    let progression := Guard.buildAutonomousProgressionPlan cat snap 8
    ⟨progression.reason, progression.subgoals, [reason]⟩

/-- The normalizer's asPositiveInt (fallback on NaN or nonpositive, else
max(1, floor)). -/
def asPositiveInt (value : Option Value) (fallback : Int) : Int :=
  match jsNumberOpt value with
  | none => fallback
  | some parsed => if parsed ≤ 0 then fallback else max 1 parsed

/-- asFiniteNumber with none standing for NaN. -/
def asFiniteNumber (value : Option Value) (fallback : Option Int) : Option Int :=
  match jsNumberOpt value with
  | none => fallback
  | some parsed => some parsed

/-- pickString: the first nonblank string among the values, trimmed. -/
def pickString : List (Option Value) → Option String
  | [] => none
  | v :: rest =>
    match v with
    | some (Value.str s) => if (jsTrim s).length > 0 then some (jsTrim s) else pickString rest
    | _ => pickString rest

/-- The count ?? amount ?? qty alias chain. -/
def countAlias (params : List (String × Value)) : Option Value :=
  coalesce (getParam params "count")
    (coalesce (getParam params "amount") (getParam params "qty"))

/-- normalizeCollect: target from the item/block/resource/resource_type/
type aliases, count from count/amount/qty, optional max_distance. -/
def normalizeCollect (sg : PlannerSubgoal) : Option PlannerSubgoal :=
  match pickString [getParam sg.params "item", getParam sg.params "block",
      getParam sg.params "resource", getParam sg.params "resource_type",
      getParam sg.params "type"] with
  | none => none
  | some target =>
    let params0 : List (String × Value) :=
      [("block", Value.str target), ("count", Value.num (asPositiveInt (countAlias sg.params) 1))]
    let params := if (jsNumberOpt (getParam sg.params "max_distance")).isSome then
        params0 ++ [("max_distance",
          Value.num (asPositiveInt (getParam sg.params "max_distance") 48))]
      else params0
    some { sg with params := params }

/-- normalizeGotoNearest. -/
def normalizeGotoNearest (sg : PlannerSubgoal) : Option PlannerSubgoal :=
  match pickString [getParam sg.params "block", getParam sg.params "resource",
      getParam sg.params "resource_type", getParam sg.params "type"] with
  | none => none
  | some target =>
    some { sg with params := [("block", Value.str target),
      ("max_distance", Value.num (asPositiveInt (getParam sg.params "max_distance") 48))] }

/-- normalizeCraftLike for craft/withdraw (key "item") and smelt (key
"input", with the optional string fuel carried over). -/
def normalizeCraftLike (sg : PlannerSubgoal) (key : String) : Option PlannerSubgoal :=
  match pickString [getParam sg.params "item", getParam sg.params "output",
      getParam sg.params "result", getParam sg.params "type",
      getParam sg.params "input", getParam sg.params "resource"] with
  | none => none
  | some target =>
    let params0 : List (String × Value) :=
      [(key, Value.str target), ("count", Value.num (asPositiveInt (countAlias sg.params) 1))]
    let params := if key = "input" then
        match getParam sg.params "fuel" with
        | some (Value.str f) => params0 ++ [("fuel", Value.str f)]
        | _ => params0
      else params0
    some { sg with params := params }

/-- The one-level embedding of nested values. -/
def simpleToValue : SimpleValue → Value
  | SimpleValue.str s => Value.str s
  | SimpleValue.num n => Value.num n
  | SimpleValue.boolean b => Value.boolean b
  | SimpleValue.nullval => Value.nullval

/-- Nested location field access for normalizeGoto. -/
def locField (sg : PlannerSubgoal) (k : String) : Option Value :=
  match getParam sg.params "location" with
  | some (Value.obj fields) =>
    ((fields.find? (fun p => p.1 == k)).map (fun p => simpleToValue p.2))
  | _ => none

/-- normalizeGoto: x/y/z from the params or the nested location, all three
finite, rounded (the identity on Int), with range defaulting to 2. -/
def normalizeGoto (sg : PlannerSubgoal) : Option PlannerSubgoal :=
  let x := asFiniteNumber (coalesce (getParam sg.params "x") (locField sg "x")) none
  let y := asFiniteNumber (coalesce (getParam sg.params "y") (locField sg "y")) none
  let z := asFiniteNumber (coalesce (getParam sg.params "z") (locField sg "z")) none
  match x, y, z with
  | some xv, some yv, some zv =>
    some { sg with params := [("x", Value.num xv), ("y", Value.num yv),
      ("z", Value.num zv),
      ("range", Value.num (asPositiveInt (getParam sg.params "range") 2))] }
  | _, _, _ => none

/-- The switch of normalizePlannerSubgoals. -/
def normalizeOne (sg : PlannerSubgoal) : Option PlannerSubgoal :=
  match sg.name with
  | SubgoalName.collect => normalizeCollect sg
  | SubgoalName.goto_nearest => normalizeGotoNearest sg
  | SubgoalName.craft => normalizeCraftLike sg "item"
  | SubgoalName.withdraw => normalizeCraftLike sg "item"
  | SubgoalName.smelt => normalizeCraftLike sg "input"
  | SubgoalName.goto => normalizeGoto sg
  | _ => some sg

/-- The names whose normalizers build a fresh object; for these the
JavaScript reference test mapped !== subgoal is always true, for the
pass-through default it is always false. -/
def isRecognized : SubgoalName → Bool
  | SubgoalName.collect => true
  | SubgoalName.goto_nearest => true
  | SubgoalName.craft => true
  | SubgoalName.withdraw => true
  | SubgoalName.smelt => true
  | SubgoalName.goto => true
  | _ => false

/-- interface NormalizedSubgoals. -/
structure NormalizedSubgoals where
  subgoals : List PlannerSubgoal
  notes : List String
deriving DecidableEq, Repr

/-- The indexed loop of normalizePlannerSubgoals. -/
def normalizeAux (index : Nat) : List PlannerSubgoal →
    List PlannerSubgoal × List String
  | [] => ([], [])
  | sg :: rest =>
    let tail := normalizeAux (index + 1) rest
    match normalizeOne sg with
    | none =>
      (tail.1, ("dropped_invalid_subgoal_" ++ toString index ++ "_" ++
        subgoalNameKey sg.name) :: tail.2)
    | some mapped =>
      if isRecognized sg.name then
        (mapped :: tail.1, ("normalized_subgoal_" ++ toString index ++ "_" ++
          subgoalNameKey sg.name) :: tail.2)
      else (mapped :: tail.1, tail.2)

/-- normalizePlannerSubgoals. -/
def normalizePlannerSubgoals (subgoals : List PlannerSubgoal) : NormalizedSubgoals :=
  let res := normalizeAux 0 subgoals
  ⟨res.1, res.2⟩

end FP

/-- A tiny game-data catalog for exercising the feasibility guard: block
"rock" (id 1) drops item 11 ("rockitem") and requires harvest tool 21
("pick"); block "pickblock" (id 2) drops the pick and needs no tool; there
are no recipes. -/
def cexCatalog : Guard.Catalog :=
  ⟨[⟨21, "pick"⟩, ⟨11, "rockitem"⟩],
   [⟨1, "rock", [11], [21]⟩, ⟨2, "pickblock", [21], []⟩],
   []⟩

/-- A quiet snapshot: full health, empty inventory, nothing nearby. -/
def cexSnap : SnapshotV1 :=
  ⟨"bot1", ⟨⟨0, 64, 0⟩, "overworld", 20, 20, []⟩, ⟨0, [], 0, []⟩, ⟨[], [], []⟩⟩

/-- A one-step plan: collect one rock. -/
def cexPlan : List PlannerSubgoal :=
  [⟨SubgoalName.collect, [("block", Value.str "rock"), ("count", Value.num 1)], []⟩]

namespace LockMgr

theorem leaseKeys_setLease (s : LMState) (l : LockLease) :
    leaseKeys (setLease s l) =
      if s.leases.any (fun x => x.resourceKey == l.resourceKey) then leaseKeys s
      else leaseKeys s ++ [l.resourceKey] := by
  unfold setLease leaseKeys
  by_cases h : s.leases.any (fun x => x.resourceKey == l.resourceKey)
  · simp only [h, if_true, List.map_map]
    apply List.map_congr_left
    intro a _
    by_cases hk : a.resourceKey == l.resourceKey
    · simp only [Function.comp_apply, hk, if_true]
      exact (eq_of_beq hk).symm
    · simp only [Function.comp_apply, hk]
      simp
  · simp [h]

theorem keysOk_setLease (s : LMState) (l : LockLease) (h : KeysOk s) :
    KeysOk (setLease s l) := by
  unfold KeysOk
  rw [leaseKeys_setLease]
  by_cases ha : s.leases.any (fun x => x.resourceKey == l.resourceKey) = true
  · rw [if_pos ha]; exact h
  · rw [if_neg ha]
    rw [List.nodup_append]
    refine ⟨h, List.nodup_singleton _, ?_⟩
    intro a hmem hcontra
    simp only [List.mem_singleton] at hcontra
    subst hcontra
    rcases List.mem_map.mp hmem with ⟨x, hx, hxa⟩
    simp only [Bool.not_eq_true, List.any_eq_false, beq_iff_eq] at ha
    exact ha x hx hxa

theorem keysOk_filter (s : LMState) (p : LockLease → Bool) (h : KeysOk s) :
    KeysOk ⟨s.leases.filter p⟩ := by
  have h2 : (s.leases.map (fun l => l.resourceKey)).Nodup := h
  exact ((List.filter_sublist s.leases).map (fun l => l.resourceKey)).nodup h2

theorem keysOk_step (leaseMs : Nat) (s : LMState) (op : LMOp) (h : KeysOk s) :
    KeysOk (stepLM leaseMs s op) := by
  cases op with
  | acquire k o n =>
    simp only [stepLM, acquire]
    have h1 : KeysOk (expireOldLeases s n) := keysOk_filter s _ h
    cases hg : getLease (expireOldLeases s n) k with
    | none => exact keysOk_setLease _ _ h1
    | some cur =>
      by_cases ho : cur.ownerBotId ≠ o
      · simpa [hg, ho] using h1
      · simpa [hg, ho] using keysOk_setLease (expireOldLeases s n) ⟨k, o, n + leaseMs⟩ h1
  | heartbeat k o n =>
    simp only [stepLM, heartbeat]
    cases hg : getLease s k with
    | none => exact h
    | some cur =>
      by_cases ho : cur.ownerBotId = o
      · simpa [hg, ho] using keysOk_setLease s ⟨k, o, n + leaseMs⟩ h
      · simpa [hg, ho] using h
  | release k o n =>
    simp only [stepLM, release]
    cases hg : getLease s k with
    | none => exact h
    | some cur =>
      by_cases ho : cur.ownerBotId = o
      · simpa [hg, ho] using keysOk_filter s _ h
      · simpa [hg, ho] using h
  | ownerOf k n =>
    simp only [stepLM, ownerOf]
    exact keysOk_filter s _ h

theorem keysOk_run (leaseMs : Nat) (ops : List LMOp) (s : LMState) (h : KeysOk s) :
    KeysOk (runLM leaseMs s ops) := by
  induction ops generalizing s with
  | nil => exact h
  | cons op ops ih => exact ih _ (keysOk_step leaseMs s op h)

theorem activeOwners_le_one (s : LMState) (h : KeysOk s) (key : String) (now : Nat) :
    (activeOwners s key now).length ≤ 1 := by
  unfold activeOwners
  rw [List.length_map]
  cases hf : s.leases.filter (fun l => l.resourceKey == key && decide (now < l.expiresAt)) with
  | nil => simp
  | cons a tl =>
    cases tl with
    | nil => simp
    | cons b tl2 =>
      exfalso
      have hsub : (a :: b :: tl2).Sublist s.leases := by
        rw [← hf]; exact List.filter_sublist s.leases
      have h2 : (s.leases.map (fun l => l.resourceKey)).Nodup := h
      have hnd : ((a :: b :: tl2).map (fun l => l.resourceKey)).Nodup :=
        (hsub.map (fun l => l.resourceKey)).nodup h2
      have ha : a ∈ s.leases.filter (fun l => l.resourceKey == key && decide (now < l.expiresAt)) := by
        rw [hf]; exact List.mem_cons_self _ _
      have hb : b ∈ s.leases.filter (fun l => l.resourceKey == key && decide (now < l.expiresAt)) := by
        rw [hf]; exact List.mem_cons_of_mem _ (List.mem_cons_self _ _)
      have hak : a.resourceKey = key := by
        have := (List.mem_filter.mp ha).2
        simp only [Bool.and_eq_true, beq_iff_eq] at this
        exact this.1
      have hbk : b.resourceKey = key := by
        have := (List.mem_filter.mp hb).2
        simp only [Bool.and_eq_true, beq_iff_eq] at this
        exact this.1
      simp only [List.map_cons, List.nodup_cons, List.mem_cons] at hnd
      exact hnd.1 (Or.inl (hak.trans hbk.symm))

/-- C1 counterexample: the claim requires that a heartbeat by an agent
holding no ACTIVE lease fails and leaves the state unchanged, but heartbeat
does not run lazy expiry: after acquiring at time 0 with a 1000 ms lease,
agent A holds no active lease at time 5000, yet its heartbeat at time 5000
succeeds and extends the lease. -/
theorem lockManager_heartbeat_expired_counterexample :
    activeOwners ((acquire 1000 lmInit "k" "A" 0).1) "k" 5000 = [] ∧
    (heartbeat 1000 ((acquire 1000 lmInit "k" "A" 0).1) "k" "A" 5000).2 = true ∧
    (heartbeat 1000 ((acquire 1000 lmInit "k" "A" 0).1) "k" "A" 5000).1 ≠
      (acquire 1000 lmInit "k" "A" 0).1 := by
  decide

/-- C1 (amended): after any sequence of acquire/heartbeat/release/ownerOf
calls at arbitrary times, every resource key carries at most one active
lease (at every instant), and a heartbeat or release invoked by an agent
that is not the RECORDED owner of the key (active or expired) fails and
leaves the lock state unchanged. -/
theorem lockManager_safety (leaseMs : Nat) (ops : List LMOp) (key owner : String)
    (now t : Nat)
    (hnotOwner : ∀ cur, getLease (runLM leaseMs lmInit ops) key = some cur →
      cur.ownerBotId ≠ owner) :
    (activeOwners (runLM leaseMs lmInit ops) key t).length ≤ 1 ∧
    heartbeat leaseMs (runLM leaseMs lmInit ops) key owner now =
      (runLM leaseMs lmInit ops, false) ∧
    release (runLM leaseMs lmInit ops) key owner = runLM leaseMs lmInit ops := by
  refine ⟨?_, ?_, ?_⟩
  · exact activeOwners_le_one _
      (keysOk_run leaseMs ops lmInit (by simp [KeysOk, leaseKeys, lmInit])) key t
  · unfold heartbeat
    cases hg : getLease (runLM leaseMs lmInit ops) key with
    | none => rfl
    | some cur => simp [hnotOwner cur hg]
  · unfold release
    cases hg : getLease (runLM leaseMs lmInit ops) key with
    | none => rfl
    | some cur => simp [hnotOwner cur hg]

/-- Witness for lockManager_safety at a concrete run: agent A acquires key
k at time 0; agent B is not the recorded owner, so B's heartbeat at time 7
fails and the safety bound holds. -/
theorem lockManager_safety_witness :
    (activeOwners (runLM 1000 lmInit [LMOp.acquire "k" "A" 0]) "k" 3).length ≤ 1 ∧
    heartbeat 1000 (runLM 1000 lmInit [LMOp.acquire "k" "A" 0]) "k" "B" 7 =
      (runLM 1000 lmInit [LMOp.acquire "k" "A" 0], false) ∧
    release (runLM 1000 lmInit [LMOp.acquire "k" "A" 0]) "k" "B" =
      runLM 1000 lmInit [LMOp.acquire "k" "A" 0] :=
  lockManager_safety 1000 [LMOp.acquire "k" "A" 0] "k" "B" 7 3 (by decide)

end LockMgr

namespace SkillLim

theorem tryEnter_refused_of_blocked (s : SLState) (bB : String)
    (hcap : s.maxConcurrent = 1) (hB : bB ∉ s.active) (hne : s.active ≠ []) :
    (tryEnter s bB).2 = false := by
  unfold tryEnter
  rw [if_neg hB]
  by_cases hh : (if bB ∈ s.waiting then s.waiting else s.waiting ++ [bB]).head? ≠ some bB
  · rw [if_pos hh]
  · rw [if_neg hh]
    rw [if_pos]
    rw [hcap]
    exact List.length_pos.mpr hne

theorem active_invariant_step (s : SLState) (op : SLOp) (A B c : String)
    (hcap : s.maxConcurrent = 1) (hc : c ∈ s.active) (hcA : c ≠ A) (hcB : c ≠ B)
    (hA : A ∉ s.active) (hB : B ∉ s.active) (hop : op.bot = A ∨ op.bot = B) :
    (stepSL s op).maxConcurrent = 1 ∧ c ∈ (stepSL s op).active ∧
      A ∉ (stepSL s op).active ∧ B ∉ (stepSL s op).active := by
  cases op with
  | leave b =>
    simp only [stepSL, leave]
    refine ⟨hcap, ?_, ?_, ?_⟩
    · apply List.mem_filter.mpr
      refine ⟨hc, ?_⟩
      simp only [SLOp.bot] at hop
      rcases hop with h | h <;> subst h <;> simp [hcA, hcB]
    · intro hmem; exact hA (List.mem_filter.mp hmem).1
    · intro hmem; exact hB (List.mem_filter.mp hmem).1
  | enter b =>
    have hbot : b = A ∨ b = B := hop
    have hbact : b ∉ s.active := by rcases hbot with h | h <;> subst h <;> assumption
    have hanon : s.active ≠ [] := by
      intro hnil; rw [hnil] at hc; exact List.not_mem_nil c hc
    simp only [stepSL]
    unfold tryEnter
    rw [if_neg hbact]
    by_cases hh : (if b ∈ s.waiting then s.waiting else s.waiting ++ [b]).head? ≠ some b
    · rw [if_pos hh]; exact ⟨hcap, hc, hA, hB⟩
    · rw [if_neg hh]
      rw [if_pos]
      · exact ⟨hcap, hc, hA, hB⟩
      · rw [hcap]
        exact List.length_pos.mpr hanon

theorem active_invariant_run (s : SLState) (ops : List SLOp) (A B c : String)
    (hcap : s.maxConcurrent = 1) (hc : c ∈ s.active) (hcA : c ≠ A) (hcB : c ≠ B)
    (hA : A ∉ s.active) (hB : B ∉ s.active)
    (hops : ∀ op ∈ ops, op.bot = A ∨ op.bot = B) :
    (runSL s ops).maxConcurrent = 1 ∧ c ∈ (runSL s ops).active ∧
      A ∉ (runSL s ops).active ∧ B ∉ (runSL s ops).active := by
  induction ops generalizing s with
  | nil => exact ⟨hcap, hc, hA, hB⟩
  | cons op ops ih =>
    have hstep := active_invariant_step s op A B c hcap hc hcA hcB hA hB
      (hops op (List.mem_cons_self _ _))
    exact ih (stepSL s op) hstep.1 hstep.2.1 hstep.2.2.1 hstep.2.2.2
      (fun o ho => hops o (List.mem_cons_of_mem _ ho))

/-- C6: SkillLimiter FIFO fairness. Start state: capacity 1, occupied by
some third agent c, A and B both previously refused and queued with A ahead
of B. Then along EVERY subsequent sequence of tryEnter/leave calls issued by
A and B, every tryEnter by B is refused; in particular B's tryEnter cannot
return true before A's does. (Calls by A and B alone never free the slot c
occupies, so no grant can occur at capacity 1.) -/
theorem skillLimiter_fifo_fairness (s0 : SLState) (A B c : String)
    (ops pre post : List SLOp)
    (hcap : s0.maxConcurrent = 1) (hc : c ∈ s0.active) (hcA : c ≠ A) (hcB : c ≠ B)
    (hA : A ∉ s0.active) (hB : B ∉ s0.active)
    (hAw : A ∈ s0.waiting) (hBw : B ∈ s0.waiting)
    (horder : s0.waiting.indexOf A < s0.waiting.indexOf B)
    (hops : ∀ op ∈ ops, op.bot = A ∨ op.bot = B)
    (hsplit : ops = pre ++ post) :
    (tryEnter (runSL s0 pre) B).2 = false := by
  have hpre : ∀ op ∈ pre, op.bot = A ∨ op.bot = B := by
    intro op hop
    exact hops op (by rw [hsplit]; exact List.mem_append.mpr (Or.inl hop))
  have hinv := active_invariant_run s0 pre A B c hcap hc hcA hcB hA hB hpre
  apply tryEnter_refused_of_blocked _ _ hinv.1 hinv.2.2.2
  intro hnil
  rw [hnil] at hinv
  exact List.not_mem_nil c hinv.2.1

/-- Witness for skillLimiter_fifo_fairness: concrete start state with C
holding the only slot and A queued ahead of B; after A retries (refused), a
tryEnter by B is still refused. -/
theorem skillLimiter_fifo_fairness_witness :
    (tryEnter (runSL ⟨1, ["C"], ["A", "B"]⟩ [SLOp.enter "A"]) "B").2 = false :=
  skillLimiter_fifo_fairness ⟨1, ["C"], ["A", "B"]⟩ "A" "B" "C"
    [SLOp.enter "A", SLOp.enter "B"] [SLOp.enter "A"] [SLOp.enter "B"]
    (by decide) (by decide) (by decide) (by decide) (by decide) (by decide)
    (by decide) (by decide) (by decide) (by decide) (by decide)

end SkillLim

namespace Skills

/-- C4 counterexample: a handler throwing a plain Error("boom") during an
explore subgoal is wrapped as Failure(DEPENDS_ON_ITEM, "boom") with
retryable = TRUE (the helpers.failure default), not retryable = false as
the claim states. -/
theorem skillEngine_wrap_retryable_counterexample :
    execute ⟨SubgoalName.explore, [], []⟩ true
        (HandlerBehavior.throws (ThrownValue.errObject "boom")) =
      SkillResultV1.failure FailureCode.DEPENDS_ON_ITEM "boom" true ∧
    execute ⟨SubgoalName.explore, [], []⟩ true
        (HandlerBehavior.throws (ThrownValue.errObject "boom")) ≠
      SkillResultV1.failure FailureCode.DEPENDS_ON_ITEM "boom" false := by
  decide

/-- C4 (amended): for every subgoal (with its lock, if any, acquired), when
the dispatched handler throws a value that is not already a structured
SkillResult Failure (no errorCode field), SkillEngine.execute returns
Failure with error code DEPENDS_ON_ITEM, the exception message (or the
fixed unknown-error text for non-Error values) as details, and
retryable = TRUE, the default of helpers.failure. -/
theorem skillEngine_exception_wrapping (sg : PlannerSubgoal) (e : ThrownValue)
    (hns : e.isStructured = false) :
    execute sg true (HandlerBehavior.throws e) =
      SkillResultV1.failure FailureCode.DEPENDS_ON_ITEM (thrownMessage e) true := by
  have hrun : runHandler (HandlerBehavior.throws e) =
      SkillResultV1.failure FailureCode.DEPENDS_ON_ITEM (thrownMessage e) true := by
    cases e with
    | structuredResult r => simp [ThrownValue.isStructured] at hns
    | errObject msg => rfl
    | otherValue => rfl
  unfold execute
  cases hk : lockKeyForSubgoal sg with
  | none => exact hrun
  | some k => simpa using hrun

/-- Witness for skillEngine_exception_wrapping: a collect subgoal whose
handler throws Error("pathfinder crashed"). -/
theorem skillEngine_exception_wrapping_witness :
    (ThrownValue.errObject "pathfinder crashed").isStructured = false ∧
    execute ⟨SubgoalName.collect, [("block", Value.str "stone")], []⟩ true
        (HandlerBehavior.throws (ThrownValue.errObject "pathfinder crashed")) =
      SkillResultV1.failure FailureCode.DEPENDS_ON_ITEM "pathfinder crashed" true :=
  ⟨rfl, skillEngine_exception_wrapping
    ⟨SubgoalName.collect, [("block", Value.str "stone")], []⟩
    (ThrownValue.errObject "pathfinder crashed") rfl⟩

end Skills

namespace Ctrl

theorem handleFailure_requeue_shape (cfg : CtrlConfig) (s : CtrlState)
    (sg : RuntimeSubgoal) (code : FailureCode) (rb : Bool) (now d : Nat)
    (nid : String) (r : RuntimeSubgoal) (q : List RuntimeSubgoal)
    (h : (handleFailure cfg s sg code rb now d nid).queue = r :: q) :
    sg.retryCount < retryLimitFor cfg code ∧ r.retryCount = sg.retryCount + 1 ∧
      q = s.queue := by
  unfold handleFailure at h
  split at h
  · rename_i hc
    simp only [] at h
    injection h with h1 h2
    refine ⟨hc.2, ?_, h2.symm⟩
    rw [← h1]
    rfl
  · simp at h

theorem countRequeues_sub_bound (cfg : CtrlConfig) (code : FailureCode) (rb : Bool)
    (events : List FailEvent) (s : CtrlState) (sg : RuntimeSubgoal) :
    countRequeues cfg code rb s sg events ≤ retryLimitFor cfg code - sg.retryCount := by
  induction events generalizing s sg with
  | nil => simp [countRequeues]
  | cons e rest ih =>
    unfold countRequeues
    cases hq : (handleFailure cfg s sg code rb e.now e.retryDelayMs e.newId).queue with
    | nil => simp [hq]
    | cons r q =>
      have hchar := handleFailure_requeue_shape cfg s sg code rb e.now e.retryDelayMs
        e.newId r q hq
      have hlt : sg.retryCount < retryLimitFor cfg code := hchar.1
      have hrc : r.retryCount = sg.retryCount + 1 := hchar.2.1
      simp only [hq]
      refine le_trans (Nat.add_le_add_left (ih _ r) 1) ?_
      omega

/-- C5: the retry bound and the loop guard. (a) retryLimitFor adds 4 to the
configured base for PATHFIND_FAILED and RESOURCE_NOT_FOUND, 3 for
INTERRUPTED_BY_HOSTILES and COMBAT_LOST_TARGET, 2 for STUCK_TIMEOUT and
PLACEMENT_FAILED, 0 otherwise. (b) A planner-emitted subgoal (retryCount 0)
is requeued at most retryLimitFor(code) times along any failure lineage.
(c) When the streak for the same subgoalName:errorCode key reaches
SUBGOAL_LOOP_GUARD_REPEATS within the streak window, the failure is not
retried: the remaining queue is dropped, the planner cooldown is cleared to
now, and the SUBGOAL_FAILED trigger is pushed. -/
theorem controller_retry_bound_and_loop_guard (cfg : CtrlConfig) (code : FailureCode)
    (rb : Bool) (s sG : CtrlState) (sg sgG : RuntimeSubgoal) (events : List FailEvent)
    (now d : Nat) (nid : String)
    (hstart : sg.retryCount = 0)
    (hguard : cfg.SUBGOAL_LOOP_GUARD_REPEATS ≤ newStreak cfg sG (failureKeyOf sgG code) now) :
    countRequeues cfg code rb s sg events ≤ retryLimitFor cfg code ∧
    retryLimitFor cfg FailureCode.PATHFIND_FAILED = cfg.SUBGOAL_RETRY_LIMIT + 4 ∧
    retryLimitFor cfg FailureCode.RESOURCE_NOT_FOUND = cfg.SUBGOAL_RETRY_LIMIT + 4 ∧
    retryLimitFor cfg FailureCode.INTERRUPTED_BY_HOSTILES = cfg.SUBGOAL_RETRY_LIMIT + 3 ∧
    retryLimitFor cfg FailureCode.COMBAT_LOST_TARGET = cfg.SUBGOAL_RETRY_LIMIT + 3 ∧
    retryLimitFor cfg FailureCode.STUCK_TIMEOUT = cfg.SUBGOAL_RETRY_LIMIT + 2 ∧
    retryLimitFor cfg FailureCode.PLACEMENT_FAILED = cfg.SUBGOAL_RETRY_LIMIT + 2 ∧
    retryLimitFor cfg FailureCode.NO_TOOL_AVAILABLE = cfg.SUBGOAL_RETRY_LIMIT ∧
    retryLimitFor cfg FailureCode.INVENTORY_FULL = cfg.SUBGOAL_RETRY_LIMIT ∧
    retryLimitFor cfg FailureCode.DEPENDS_ON_ITEM = cfg.SUBGOAL_RETRY_LIMIT ∧
    retryLimitFor cfg FailureCode.BOT_DIED = cfg.SUBGOAL_RETRY_LIMIT ∧
    (handleFailure cfg sG sgG code rb now d nid).queue = [] ∧
    (handleFailure cfg sG sgG code rb now d nid).plannerCooldownUntil = now ∧
    (handleFailure cfg sG sgG code rb now d nid).pendingTriggers = ["SUBGOAL_FAILED"] := by
  have hbound := countRequeues_sub_bound cfg code rb events s sg
  have hEls : handleFailure cfg sG sgG code rb now d nid =
      { queue := [],
        repeatedFailureKey := some (failureKeyOf sgG code),
        repeatedFailureCount := newStreak cfg sG (failureKeyOf sgG code) now,
        repeatedFailureLastAtMs := now,
        plannerCooldownUntil := now,
        pendingTriggers := ["SUBGOAL_FAILED"] } := by
    unfold handleFailure
    rw [if_neg]
    intro hc
    rw [retryableAfterGuard, if_pos hguard] at hc
    exact Bool.false_ne_true hc.1
  refine ⟨by omega, rfl, rfl, rfl, rfl, rfl, rfl, rfl, rfl, rfl, rfl, ?_, ?_, ?_⟩ <;>
    rw [hEls]

/-- Witness for controller_retry_bound_and_loop_guard: base retry limit 2,
loop guard 8, a fresh collect subgoal failing with PATHFIND_FAILED over one
failure event, and a streak state already at 8 repeats inside the window. -/
theorem controller_retry_bound_and_loop_guard_witness :
    countRequeues ⟨2, 180000, 8⟩ FailureCode.PATHFIND_FAILED true
        ⟨[], none, 0, 0, 0, []⟩ ⟨SubgoalName.collect, "sg0", 0, 0⟩
        [⟨1000, 500, "r1"⟩] ≤
      retryLimitFor ⟨2, 180000, 8⟩ FailureCode.PATHFIND_FAILED ∧
    retryLimitFor ⟨2, 180000, 8⟩ FailureCode.PATHFIND_FAILED = 2 + 4 ∧
    retryLimitFor ⟨2, 180000, 8⟩ FailureCode.RESOURCE_NOT_FOUND = 2 + 4 ∧
    retryLimitFor ⟨2, 180000, 8⟩ FailureCode.INTERRUPTED_BY_HOSTILES = 2 + 3 ∧
    retryLimitFor ⟨2, 180000, 8⟩ FailureCode.COMBAT_LOST_TARGET = 2 + 3 ∧
    retryLimitFor ⟨2, 180000, 8⟩ FailureCode.STUCK_TIMEOUT = 2 + 2 ∧
    retryLimitFor ⟨2, 180000, 8⟩ FailureCode.PLACEMENT_FAILED = 2 + 2 ∧
    retryLimitFor ⟨2, 180000, 8⟩ FailureCode.NO_TOOL_AVAILABLE = 2 ∧
    retryLimitFor ⟨2, 180000, 8⟩ FailureCode.INVENTORY_FULL = 2 ∧
    retryLimitFor ⟨2, 180000, 8⟩ FailureCode.DEPENDS_ON_ITEM = 2 ∧
    retryLimitFor ⟨2, 180000, 8⟩ FailureCode.BOT_DIED = 2 ∧
    (handleFailure ⟨2, 180000, 8⟩ ⟨[], some "collect:PATHFIND_FAILED", 8, 900, 0, []⟩
        ⟨SubgoalName.collect, "sg1", 0, 0⟩ FailureCode.PATHFIND_FAILED true
        1000 500 "r2").queue = [] ∧
    (handleFailure ⟨2, 180000, 8⟩ ⟨[], some "collect:PATHFIND_FAILED", 8, 900, 0, []⟩
        ⟨SubgoalName.collect, "sg1", 0, 0⟩ FailureCode.PATHFIND_FAILED true
        1000 500 "r2").plannerCooldownUntil = 1000 ∧
    (handleFailure ⟨2, 180000, 8⟩ ⟨[], some "collect:PATHFIND_FAILED", 8, 900, 0, []⟩
        ⟨SubgoalName.collect, "sg1", 0, 0⟩ FailureCode.PATHFIND_FAILED true
        1000 500 "r2").pendingTriggers = ["SUBGOAL_FAILED"] :=
  controller_retry_bound_and_loop_guard ⟨2, 180000, 8⟩ FailureCode.PATHFIND_FAILED true
    ⟨[], none, 0, 0, 0, []⟩ ⟨[], some "collect:PATHFIND_FAILED", 8, 900, 0, []⟩
    ⟨SubgoalName.collect, "sg0", 0, 0⟩ ⟨SubgoalName.collect, "sg1", 0, 0⟩
    [⟨1000, 500, "r1"⟩] 1000 500 "r2" rfl (by decide)

end Ctrl

namespace RL

theorem dropWhile_lt_eq_filter_ge (th : Nat) (l : List Nat) (hs : l.Sorted (· ≤ ·)) :
    l.dropWhile (fun ts => ts < th) = l.filter (fun ts => th ≤ ts) := by
  induction l with
  | nil => rfl
  | cons x xs ih =>
    have hxs : xs.Sorted (· ≤ ·) := hs.of_cons
    have hall : ∀ y ∈ xs, x ≤ y := fun y hy => (List.sorted_cons.mp hs).1 y hy
    by_cases hx : x < th
    · rw [List.dropWhile_cons_of_pos (by simpa using hx),
        List.filter_cons_of_neg (by simpa using Nat.not_le.mpr hx)]
      exact ih hxs
    · rw [List.dropWhile_cons_of_neg (by simpa using hx),
        List.filter_cons_of_pos (by simpa using Nat.le_of_not_lt hx)]
      rw [List.filter_eq_self.mpr]
      intro y hy
      simpa using le_trans (Nat.le_of_not_lt hx) (hall y hy)

theorem filter_ge_filter_ge (th1 th2 : Nat) (h : th1 ≤ th2) (l : List Nat) :
    (l.filter (fun t => th1 ≤ t)).filter (fun t => th2 ≤ t) =
      l.filter (fun t => th2 ≤ t) := by
  induction l with
  | nil => rfl
  | cons x xs ih =>
    by_cases h2 : th2 ≤ x
    · have h1 : th1 ≤ x := le_trans h h2
      simp only [List.filter_cons]
      simp [h1, h2, ih]
    · by_cases h1 : th1 ≤ x
      · simp only [List.filter_cons]
        simp [h1, h2, ih]
      · simp only [List.filter_cons]
        simp [h1, h2, ih]

theorem pruneList_of_sorted (th : Nat) (l : List Nat) (hs : l.Sorted (· ≤ ·)) :
    pruneList th l = l.filter (fun t => th ≤ t) :=
  dropWhile_lt_eq_filter_ge th l hs

theorem find_none_of_not_mem_keys (entries : BotEntries) (b : String)
    (h : b ∉ entries.map (fun p => p.1)) :
    entries.find? (fun p => p.1 == b) = none := by
  rw [List.find?_eq_none]
  intro p hp hbeq
  exact h (List.mem_map.mpr ⟨p, hp, eq_of_beq hbeq⟩)

theorem keys_pruneEntries_sublist (th : Nat) (entries : BotEntries) :
    ((pruneEntries th entries).map (fun p => p.1)).Sublist
      (entries.map (fun p => p.1)) := by
  unfold pruneEntries
  have h1 : (((entries.map (fun p => (p.1, pruneList th p.2))).filter
      (fun p => !p.2.isEmpty)).map (fun p => p.1)).Sublist
        ((entries.map (fun p => (p.1, pruneList th p.2))).map (fun p => p.1)) :=
    (List.filter_sublist _).map _
  have h2 : ((entries.map (fun p => (p.1, pruneList th p.2))).map (fun p => p.1)) =
      entries.map (fun p => p.1) := by
    rw [List.map_map]
    rfl
  rw [h2] at h1
  exact h1

theorem pruneEntries_cons (th : Nat) (e : String × List Nat) (rest : BotEntries) :
    pruneEntries th (e :: rest) =
      if (pruneList th e.2).isEmpty then pruneEntries th rest
      else (e.1, pruneList th e.2) :: pruneEntries th rest := by
  unfold pruneEntries
  rw [List.map_cons, List.filter_cons]
  by_cases he : (pruneList th e.2).isEmpty
  · simp [he]
  · simp [he]

theorem find_pruneEntries (th : Nat) (entries : BotEntries)
    (hnd : (entries.map (fun p => p.1)).Nodup) (b : String) :
    ((((pruneEntries th entries).find? (fun p => p.1 == b)).map (fun p => p.2)).getD []) =
      pruneList th ((((entries.find? (fun p => p.1 == b)).map (fun p => p.2)).getD [])) := by
  induction entries with
  | nil => rfl
  | cons e rest ih =>
    rw [pruneEntries_cons]
    have hnd2 : (rest.map (fun p => p.1)).Nodup := (List.nodup_cons.mp hnd).2
    have hkey : e.1 ∉ rest.map (fun p => p.1) := (List.nodup_cons.mp hnd).1
    by_cases hk : (e.1 == b) = true
    · have hb : e.1 = b := eq_of_beq hk
      rw [@List.find?_cons_of_pos _ (fun p => p.1 == b) e rest hk]
      by_cases he : (pruneList th e.2).isEmpty
      · rw [if_pos he]
        have hnone : (pruneEntries th rest).find? (fun p => p.1 == b) = none := by
          apply find_none_of_not_mem_keys
          intro hmem
          exact hkey (hb ▸ (keys_pruneEntries_sublist th rest).subset hmem)
        rw [hnone]
        simp [List.isEmpty_iff.mp he]
      · rw [if_neg he]
        rw [@List.find?_cons_of_pos _ (fun p => p.1 == b) (e.1, pruneList th e.2)
          (pruneEntries th rest) (by simpa using hk)]
        rfl
    · rw [@List.find?_cons_of_neg _ (fun p => p.1 == b) e rest hk]
      by_cases he : (pruneList th e.2).isEmpty
      · rw [if_pos he]
        exact ih hnd2
      · rw [if_neg he]
        rw [@List.find?_cons_of_neg _ (fun p => p.1 == b) (e.1, pruneList th e.2)
          (pruneEntries th rest) (by simpa using hk)]
        exact ih hnd2

theorem getBot_prune (s : RLState) (now : Nat)
    (hnd : (s.botCalls.map (fun p => p.1)).Nodup) (b : String) :
    getBot (prune s now) b = pruneList (rollingHourWindowStart now) (getBot s b) :=
  find_pruneEntries (rollingHourWindowStart now) s.botCalls hnd b

theorem find_map_replace (entries : BotEntries) (b : String) (v : List Nat)
    (ha : entries.any (fun p => p.1 == b) = true) :
    (entries.map (fun p => if p.1 == b then (b, v) else p)).find?
      (fun p => p.1 == b) = some (b, v) := by
  induction entries with
  | nil => simp at ha
  | cons e rest ih =>
    rw [List.map_cons]
    by_cases hk : (e.1 == b) = true
    · rw [if_pos hk]
      rw [@List.find?_cons_of_pos _ (fun p => p.1 == b) (b, v)
        (rest.map (fun p => if p.1 == b then (b, v) else p)) (by simp)]
    · rw [if_neg hk]
      rw [@List.find?_cons_of_neg _ (fun p => p.1 == b) e
        (rest.map (fun p => if p.1 == b then (b, v) else p)) hk]
      exact ih (by simpa [hk] using ha)

theorem find_map_replace_other (entries : BotEntries) (b b' : String)
    (v : List Nat) (hne : b' ≠ b) :
    (entries.map (fun p => if p.1 == b then (b, v) else p)).find?
      (fun p => p.1 == b') = entries.find? (fun p => p.1 == b') := by
  induction entries with
  | nil => rfl
  | cons e rest ih =>
    rw [List.map_cons]
    by_cases hk : (e.1 == b) = true
    · rw [if_pos hk]
      have hb : e.1 = b := eq_of_beq hk
      have hne2 : ¬ ((b, v).1 == b') = true := by
        simp only [beq_iff_eq]
        exact fun hcontra => hne (hcontra.symm)
      have hne3 : ¬ (e.1 == b') = true := by
        simp only [beq_iff_eq, hb]
        exact fun hcontra => hne (hcontra.symm)
      rw [@List.find?_cons_of_neg _ (fun p => p.1 == b') (b, v)
        (rest.map (fun p => if p.1 == b then (b, v) else p)) hne2,
        @List.find?_cons_of_neg _ (fun p => p.1 == b') e rest hne3]
      exact ih
    · rw [if_neg hk]
      by_cases he : (e.1 == b') = true
      · rw [@List.find?_cons_of_pos _ (fun p => p.1 == b') e
          (rest.map (fun p => if p.1 == b then (b, v) else p)) he,
          @List.find?_cons_of_pos _ (fun p => p.1 == b') e rest he]
      · rw [@List.find?_cons_of_neg _ (fun p => p.1 == b') e
          (rest.map (fun p => if p.1 == b then (b, v) else p)) he,
          @List.find?_cons_of_neg _ (fun p => p.1 == b') e rest he]
        exact ih

theorem getBot_setBot_same (entries : BotEntries) (b : String) (v : List Nat) :
    ((((setBot entries b v).find? (fun p => p.1 == b)).map (fun p => p.2)).getD []) = v := by
  unfold setBot
  by_cases ha : entries.any (fun p => p.1 == b) = true
  · rw [if_pos ha, find_map_replace entries b v ha]
    rfl
  · rw [if_neg ha]
    rw [List.find?_append]
    have hnone : entries.find? (fun p => p.1 == b) = none := by
      apply find_none_of_not_mem_keys
      intro hmem
      rcases List.mem_map.mp hmem with ⟨p, hp, hpb⟩
      simp only [Bool.not_eq_true, List.any_eq_false, beq_iff_eq] at ha
      exact ha p hp hpb
    rw [hnone]
    rw [@List.find?_cons_of_pos _ (fun p => p.1 == b) (b, v) [] (by simp)]
    rfl

theorem getBot_setBot_other (entries : BotEntries) (b b' : String) (v : List Nat)
    (hne : b' ≠ b) :
    ((((setBot entries b v).find? (fun p => p.1 == b')).map (fun p => p.2)).getD []) =
      (((entries.find? (fun p => p.1 == b')).map (fun p => p.2)).getD []) := by
  unfold setBot
  by_cases ha : entries.any (fun p => p.1 == b) = true
  · rw [if_pos ha, find_map_replace_other entries b b' v hne]
  · rw [if_neg ha, List.find?_append]
    cases hf : entries.find? (fun p => p.1 == b') with
    | some p => rfl
    | none =>
      have hnotb : ¬ ((b, v).1 == b') = true := by
        simp only [beq_iff_eq]
        exact fun hcontra => hne hcontra.symm
      simp [hf, @List.find?_cons_of_neg _ (fun p => p.1 == b') (b, v) [] hnotb]

theorem keys_setBot_of_any (entries : BotEntries) (b : String) (v : List Nat)
    (ha : entries.any (fun p => p.1 == b) = true) :
    (setBot entries b v).map (fun p => p.1) = entries.map (fun p => p.1) := by
  unfold setBot
  rw [if_pos ha, List.map_map]
  apply List.map_congr_left
  intro p _
  by_cases hk : (p.1 == b) = true
  · simp only [Function.comp_apply, hk, if_pos]
    exact (eq_of_beq hk).symm
  · simp only [Function.comp_apply, hk]
    simp

theorem keys_setBot_of_not_any (entries : BotEntries) (b : String) (v : List Nat)
    (ha : ¬ entries.any (fun p => p.1 == b) = true) :
    (setBot entries b v).map (fun p => p.1) = entries.map (fun p => p.1) ++ [b] := by
  unfold setBot
  rw [if_neg ha]
  simp

theorem setBot_nonempty (entries : BotEntries) (b : String) (v : List Nat)
    (hv : v ≠ []) (h : ∀ p ∈ entries, p.2 ≠ []) :
    ∀ p ∈ setBot entries b v, p.2 ≠ [] := by
  unfold setBot
  by_cases ha : entries.any (fun p => p.1 == b) = true
  · rw [if_pos ha]
    intro p hp
    rcases List.mem_map.mp hp with ⟨q, hq, hqp⟩
    by_cases hk : (q.1 == b) = true
    · rw [if_pos hk] at hqp
      rw [← hqp]
      exact hv
    · rw [if_neg hk] at hqp
      rw [← hqp]
      exact h q hq
  · rw [if_neg ha]
    intro p hp
    rcases List.mem_append.mp hp with hin | hin
    · exact h p hin
    · rw [List.mem_singleton.mp hin]
      exact hv

theorem pruneEntries_nonempty (th : Nat) (entries : BotEntries) :
    ∀ p ∈ pruneEntries th entries, p.2 ≠ [] := by
  intro p hp
  have := (List.mem_filter.mp hp).2
  intro hnil
  rw [hnil] at this
  simp at this

theorem getBot_of_mem (s : RLState)
    (hnd : (s.botCalls.map (fun p => p.1)).Nodup) (p : String × List Nat)
    (hp : p ∈ s.botCalls) : getBot s p.1 = p.2 := by
  unfold getBot
  rcases s with ⟨entries, g⟩
  simp only at hp hnd ⊢
  induction entries with
  | nil => exact absurd hp (List.not_mem_nil p)
  | cons e rest ih =>
    have hnd2 : (rest.map (fun q => q.1)).Nodup := (List.nodup_cons.mp hnd).2
    have hkey : e.1 ∉ rest.map (fun q => q.1) := (List.nodup_cons.mp hnd).1
    rcases List.mem_cons.mp hp with heq | hin
    · rw [heq]
      rw [@List.find?_cons_of_pos _ (fun q => q.1 == e.1) e rest (by simp)]
      rfl
    · by_cases hk : (e.1 == p.1) = true
      · exfalso
        apply hkey
        rw [eq_of_beq hk]
        exact List.mem_map.mpr ⟨p, hin, rfl⟩
      · rw [@List.find?_cons_of_neg _ (fun q => q.1 == p.1) e rest hk]
        exact ih hnd2 hin

theorem mem_keys_of_getBot_ne (s : RLState) (b : String) (h : getBot s b ≠ []) :
    b ∈ s.botCalls.map (fun p => p.1) := by
  by_contra hmem
  apply h
  unfold getBot
  rw [find_none_of_not_mem_keys s.botCalls b hmem]
  rfl

theorem any_key_iff (entries : BotEntries) (b : String) :
    entries.any (fun p => p.1 == b) = true ↔ b ∈ entries.map (fun p => p.1) := by
  rw [List.any_eq_true]
  constructor
  · rintro ⟨p, hp, hb⟩
    exact List.mem_map.mpr ⟨p, hp, eq_of_beq hb⟩
  · intro h
    rcases List.mem_map.mp h with ⟨p, hp, hb⟩
    exact ⟨p, hp, beq_iff_eq.mpr hb⟩

theorem consume_eq (cfg : RLConfig) (s : RLState) (b : String) (now : Nat) :
    consume cfg s b now =
      if cfg.perBotCap ≤ (getBot (prune s now) b).length then
        (prune s now, ⟨false, some LimitReason.BOT_CAP,
          some (max 1000 ((getBot (prune s now) b).headD now + HOUR_MS - now))⟩)
      else if cfg.globalCap ≤ (prune s now).globalCalls.length then
        (prune s now, ⟨false, some LimitReason.GLOBAL_CAP,
          some (max 1000 ((prune s now).globalCalls.headD now + HOUR_MS - now))⟩)
      else
        ({ botCalls := setBot (prune s now).botCalls b (getBot (prune s now) b ++ [now]),
           globalCalls := (prune s now).globalCalls ++ [now] },
         ⟨true, none, none⟩) := rfl

theorem callsInLastHour_state (s : RLState) (b : Option String) (now : Nat) :
    (callsInLastHour s b now).1 = prune s now := by
  cases b <;> rfl

theorem consume_denied_state (cfg : RLConfig) (s : RLState) (b : String) (now : Nat)
    (h : (consume cfg s b now).2.allowed = false) :
    (consume cfg s b now).1 = prune s now := by
  rw [consume_eq]
  by_cases h1 : cfg.perBotCap ≤ (getBot (prune s now) b).length
  · rw [if_pos h1]
  · rw [if_neg h1]
    by_cases h2 : cfg.globalCap ≤ (prune s now).globalCalls.length
    · rw [if_pos h2]
    · exfalso
      rw [consume_eq, if_neg h1, if_neg h2] at h
      exact Bool.true_eq_false ▸ h

theorem consume_allowed_conditions (cfg : RLConfig) (s : RLState) (b : String)
    (now : Nat) (h : (consume cfg s b now).2.allowed = true) :
    (getBot (prune s now) b).length < cfg.perBotCap ∧
    (prune s now).globalCalls.length < cfg.globalCap ∧
    (consume cfg s b now).1 =
      { botCalls := setBot (prune s now).botCalls b (getBot (prune s now) b ++ [now]),
        globalCalls := (prune s now).globalCalls ++ [now] } := by
  by_cases h1 : cfg.perBotCap ≤ (getBot (prune s now) b).length
  · exfalso
    rw [consume_eq, if_pos h1] at h
    exact Bool.false_ne_true h
  · by_cases h2 : cfg.globalCap ≤ (prune s now).globalCalls.length
    · exfalso
      rw [consume_eq, if_neg h1, if_pos h2] at h
      exact Bool.false_ne_true h
    · refine ⟨Nat.lt_of_not_le h1, Nat.lt_of_not_le h2, ?_⟩
      rw [consume_eq, if_neg h1, if_neg h2]

theorem RLInv_init : RLInv [] 0 rlInit := by
  refine ⟨List.nodup_nil, ?_, ?_, rfl, List.sorted_nil, ?_⟩
  · intro p hp
    exact absurd hp (List.not_mem_nil p)
  · intro b
    rfl
  · intro c hc
    exact absurd hc (List.not_mem_nil c)

theorem RLInv_prune (log : List (String × Nat)) (last : Nat) (s : RLState)
    (hInv : RLInv log last s) (n : Nat) (hlast : last ≤ n) :
    RLInv log n (prune s n) := by
  have hth : rollingHourWindowStart last ≤ rollingHourWindowStart n :=
    Nat.sub_le_sub_right hlast _
  refine ⟨?_, ?_, ?_, ?_, hInv.log_sorted, ?_⟩
  · exact (keys_pruneEntries_sublist _ _).nodup hInv.keys_nodup
  · exact pruneEntries_nonempty _ _
  · intro b
    rw [getBot_prune s n hInv.keys_nodup b, hInv.bot_char b]
    have hsub : (((log.filter (fun c => c.1 == b)).map (fun c => c.2)).filter
        (fun t => rollingHourWindowStart last ≤ t)).Sublist (log.map (fun c => c.2)) :=
      (List.filter_sublist _).trans ((List.filter_sublist log).map _)
    rw [pruneList_of_sorted _ _ (hInv.log_sorted.sublist hsub)]
    exact filter_ge_filter_ge _ _ hth _
  · show pruneList _ s.globalCalls = _
    rw [hInv.global_char]
    rw [pruneList_of_sorted _ _ (hInv.log_sorted.sublist (List.filter_sublist _))]
    exact filter_ge_filter_ge _ _ hth _
  · intro c hc
    exact le_trans (hInv.log_le c hc) hlast

theorem filter_window_append_same (log : List (String × Nat)) (b : String)
    (n th : Nat) (hth : th ≤ n) :
    ((((log ++ [(b, n)]).filter (fun c => c.1 == b)).map (fun c => c.2)).filter
        (fun t => th ≤ t)) =
      ((((log.filter (fun c => c.1 == b)).map (fun c => c.2)).filter
        (fun t => th ≤ t)) ++ [n]) := by
  rw [List.filter_append, List.map_append, List.filter_append]
  congr 1
  simp [hth]

theorem filter_window_append_other (log : List (String × Nat)) (b b' : String)
    (n : Nat) (hne : b' ≠ b) :
    (log ++ [(b, n)]).filter (fun c => c.1 == b') =
      log.filter (fun c => c.1 == b') := by
  rw [List.filter_append]
  have : ¬ ((b, n).1 == b') = true := by
    simp only [beq_iff_eq]
    exact fun hcontra => hne hcontra.symm
  simp [this]

theorem RLInv_consume_allowed (cfg : RLConfig) (log : List (String × Nat))
    (last : Nat) (s : RLState) (hInv : RLInv log last s) (b : String) (n : Nat)
    (hlast : last ≤ n) (hal : (consume cfg s b n).2.allowed = true) :
    RLInv (log ++ [(b, n)]) n (consume cfg s b n).1 := by
  have hpruned : RLInv log n (prune s n) := RLInv_prune log last s hInv n hlast
  have hcond := consume_allowed_conditions cfg s b n hal
  rw [hcond.2.2]
  have hthn : rollingHourWindowStart n ≤ n := Nat.sub_le n HOUR_MS
  refine ⟨?_, ?_, ?_, ?_, ?_, ?_⟩
  · by_cases ha : (prune s n).botCalls.any (fun p => p.1 == b) = true
    · show ((setBot (prune s n).botCalls b _).map (fun p => p.1)).Nodup
      rw [keys_setBot_of_any _ _ _ ha]
      exact hpruned.keys_nodup
    · show ((setBot (prune s n).botCalls b _).map (fun p => p.1)).Nodup
      rw [keys_setBot_of_not_any _ _ _ ha]
      rw [List.nodup_append]
      refine ⟨hpruned.keys_nodup, List.nodup_singleton _, ?_⟩
      intro a hmem hcontra
      rw [List.mem_singleton.mp hcontra] at hmem
      exact ha ((any_key_iff _ b).mpr hmem)
  · exact setBot_nonempty _ _ _ (by simp) hpruned.entries_nonempty
  · intro b'
    by_cases hb : b' = b
    · subst hb
      show ((((setBot (prune s n).botCalls b' _).find? (fun p => p.1 == b')).map
        (fun p => p.2)).getD []) = _
      rw [getBot_setBot_same]
      rw [filter_window_append_same log b' n _ hthn]
      rw [← hpruned.bot_char b']
    · show ((((setBot (prune s n).botCalls b _).find? (fun p => p.1 == b')).map
        (fun p => p.2)).getD []) = _
      rw [getBot_setBot_other _ _ _ _ hb]
      rw [filter_window_append_other log b b' n hb]
      exact hpruned.bot_char b'
  · show (prune s n).globalCalls ++ [n] =
      ((log ++ [(b, n)]).map (fun c => c.2)).filter
        (fun t => rollingHourWindowStart n ≤ t)
    have hsing : ([(b, n)].map (fun c => c.2)).filter
        (fun t => rollingHourWindowStart n ≤ t) = [n] := by
      simp [hthn]
    rw [List.map_append, List.filter_append, hpruned.global_char, hsing]
  · rw [List.map_append]
    apply List.pairwise_append.mpr
    refine ⟨hInv.log_sorted, List.sorted_singleton _, ?_⟩
    intro x hx y hy
    simp only [List.map_cons, List.map_nil, List.mem_singleton] at hy
    subst hy
    rcases List.mem_map.mp hx with ⟨c, hc, hcx⟩
    exact hcx ▸ le_trans (hInv.log_le c hc) hlast
  · intro c hc
    rcases List.mem_append.mp hc with hin | hin
    · exact le_trans (hInv.log_le c hin) hlast
    · rw [List.mem_singleton.mp hin]

/-- The clock after running the calls: the time of the last call, or the
starting clock when there is none. -/
def lastTime (ops : List RLOp) (last : Nat) : Nat :=
  ops.foldl (fun _ op => op.time) last

theorem lastTime_cons (op : RLOp) (ops : List RLOp) (last : Nat) :
    lastTime (op :: ops) last = lastTime ops op.time := rfl

theorem RLInv_run (cfg : RLConfig) (ops : List RLOp) (log : List (String × Nat))
    (last : Nat) (s : RLState) (hInv : RLInv log last s)
    (hmono : (ops.map RLOp.time).Sorted (· ≤ ·))
    (hge : ∀ op ∈ ops, last ≤ op.time) :
    RLInv (log ++ allowedLog cfg s ops) (lastTime ops last) (runRL cfg s ops) := by
  induction ops generalizing log last s with
  | nil => simpa [allowedLog, runRL, lastTime] using hInv
  | cons op rest ih =>
    have hlast : last ≤ op.time := hge op (List.mem_cons_self _ _)
    have hmono2 : (rest.map RLOp.time).Sorted (· ≤ ·) :=
      (List.sorted_cons.mp hmono).2
    have hge2 : ∀ o ∈ rest, op.time ≤ o.time := fun o ho =>
      (List.sorted_cons.mp hmono).1 o.time (List.mem_map.mpr ⟨o, ho, rfl⟩)
    cases op with
    | query b0 n =>
      have hstep : stepRL cfg s (RLOp.query b0 n) = prune s n := by
        show (callsInLastHour s b0 n).1 = prune s n
        exact callsInLastHour_state s b0 n
      have hlog : allowedLog cfg s (RLOp.query b0 n :: rest) =
          allowedLog cfg (prune s n) rest := by
        show allowedLog cfg (callsInLastHour s b0 n).1 rest = _
        rw [callsInLastHour_state]
      show RLInv _ (lastTime rest n) (runRL cfg (stepRL cfg s (RLOp.query b0 n)) rest)
      rw [hstep, hlog]
      exact ih log n (prune s n)
        (RLInv_prune log last s hInv n hlast) hmono2 hge2
    | consume b0 n =>
      cases hal : (consume cfg s b0 n).2.allowed with
      | false =>
        have hstep : stepRL cfg s (RLOp.consume b0 n) = prune s n :=
          consume_denied_state cfg s b0 n hal
        have hlog : allowedLog cfg s (RLOp.consume b0 n :: rest) =
            allowedLog cfg (consume cfg s b0 n).1 rest := by
          show ((if (consume cfg s b0 n).2.allowed then [(b0, n)] else []) ++ _) = _
          rw [hal]
          rfl
        show RLInv _ (lastTime rest n) (runRL cfg (stepRL cfg s (RLOp.consume b0 n)) rest)
        rw [hstep, hlog, consume_denied_state cfg s b0 n hal]
        exact ih log n (prune s n)
          (RLInv_prune log last s hInv n hlast) hmono2 hge2
      | true =>
        have hlog : allowedLog cfg s (RLOp.consume b0 n :: rest) =
            (b0, n) :: allowedLog cfg (consume cfg s b0 n).1 rest := by
          show ((if (consume cfg s b0 n).2.allowed then [(b0, n)] else []) ++ _) = _
          rw [hal]
          rfl
        show RLInv _ (lastTime rest n) (runRL cfg (stepRL cfg s (RLOp.consume b0 n)) rest)
        rw [hlog]
        have hnew := RLInv_consume_allowed cfg log last s hInv b0 n hlast hal
        have hres := ih (log ++ [(b0, n)]) n (consume cfg s b0 n).1 hnew hmono2 hge2
        rw [List.append_assoc] at hres
        simpa using hres

theorem countP_window_le_pruned (log : List (String × Nat)) (b : String) (t n : Nat)
    (hwin : n ≤ t + HOUR_MS) (hle : ∀ c ∈ log, c.2 ≤ n) :
    log.countP (fun c => c.1 == b && decide (t ≤ c.2) && decide (c.2 ≤ t + HOUR_MS)) ≤
      (((log.filter (fun c => c.1 == b)).map (fun c => c.2)).filter
        (fun ts => rollingHourWindowStart n ≤ ts)).length := by
  induction log with
  | nil => simp
  | cons c rest ih =>
    have hle2 : ∀ x ∈ rest, x.2 ≤ n := fun x hx => hle x (List.mem_cons_of_mem _ hx)
    have ihr := ih hle2
    rw [List.countP_cons, List.filter_cons]
    by_cases hkey : (c.1 == b) = true
    · rw [if_pos hkey, List.map_cons, List.filter_cons]
      by_cases hpred : (c.1 == b && decide (t ≤ c.2) &&
          decide (c.2 ≤ t + HOUR_MS)) = true
      · rw [if_pos hpred]
        have hth : (decide (rollingHourWindowStart n ≤ c.2)) = true := by
          simp only [Bool.and_eq_true, decide_eq_true_eq] at hpred
          simp only [decide_eq_true_eq, rollingHourWindowStart]
          omega
        rw [if_pos hth, List.length_cons]
        omega
      · rw [if_neg hpred]
        by_cases hth : (decide (rollingHourWindowStart n ≤ c.2)) = true
        · rw [if_pos hth, List.length_cons]
          omega
        · rw [if_neg hth]
          omega
    · have hpred : ¬ (c.1 == b && decide (t ≤ c.2) &&
          decide (c.2 ≤ t + HOUR_MS)) = true := by
        intro hcontra
        simp only [Bool.and_eq_true] at hcontra
        exact hkey hcontra.1.1
      rw [if_neg hkey, if_neg hpred]
      omega

theorem countP_window_le_pruned_global (log : List (String × Nat)) (t n : Nat)
    (hwin : n ≤ t + HOUR_MS) (hle : ∀ c ∈ log, c.2 ≤ n) :
    log.countP (fun c => decide (t ≤ c.2) && decide (c.2 ≤ t + HOUR_MS)) ≤
      ((log.map (fun c => c.2)).filter
        (fun ts => rollingHourWindowStart n ≤ ts)).length := by
  induction log with
  | nil => simp
  | cons c rest ih =>
    have hle2 : ∀ x ∈ rest, x.2 ≤ n := fun x hx => hle x (List.mem_cons_of_mem _ hx)
    have ihr := ih hle2
    rw [List.countP_cons, List.map_cons, List.filter_cons]
    by_cases hpred : (decide (t ≤ c.2) && decide (c.2 ≤ t + HOUR_MS)) = true
    · rw [if_pos hpred]
      have hth : (decide (rollingHourWindowStart n ≤ c.2)) = true := by
        simp only [Bool.and_eq_true, decide_eq_true_eq] at hpred
        simp only [decide_eq_true_eq, rollingHourWindowStart]
        omega
      rw [if_pos hth, List.length_cons]
      omega
    · rw [if_neg hpred]
      by_cases hth : (decide (rollingHourWindowStart n ≤ c.2)) = true
      · rw [if_pos hth, List.length_cons]
        omega
      · rw [if_neg hth]
        omega

theorem windowBound_bot (cfg : RLConfig) (ops : List RLOp)
    (log : List (String × Nat)) (last : Nat) (s : RLState) (hInv : RLInv log last s)
    (hmono : (ops.map RLOp.time).Sorted (· ≤ ·))
    (hge : ∀ op ∈ ops, last ≤ op.time) (b : String) (t : Nat)
    (hbase : (log.filter (fun c => c.1 == b && decide (t ≤ c.2) &&
      decide (c.2 ≤ t + HOUR_MS))).length ≤ cfg.perBotCap) :
    ((log ++ allowedLog cfg s ops).filter (fun c => c.1 == b && decide (t ≤ c.2) &&
      decide (c.2 ≤ t + HOUR_MS))).length ≤ cfg.perBotCap := by
  induction ops generalizing log last s with
  | nil => simpa [allowedLog] using hbase
  | cons op rest ih =>
    have hlast : last ≤ op.time := hge op (List.mem_cons_self _ _)
    have hmono2 : (rest.map RLOp.time).Sorted (· ≤ ·) := (List.sorted_cons.mp hmono).2
    have hge2 : ∀ o ∈ rest, op.time ≤ o.time := fun o ho =>
      (List.sorted_cons.mp hmono).1 o.time (List.mem_map.mpr ⟨o, ho, rfl⟩)
    cases op with
    | query b0 n =>
      have hlog : allowedLog cfg s (RLOp.query b0 n :: rest) =
          allowedLog cfg (prune s n) rest := by
        show allowedLog cfg (callsInLastHour s b0 n).1 rest = _
        rw [callsInLastHour_state]
      rw [hlog]
      exact ih log n (prune s n) (RLInv_prune log last s hInv n hlast) hmono2 hge2 hbase
    | consume b0 n =>
      cases hal : (consume cfg s b0 n).2.allowed with
      | false =>
        have hlog : allowedLog cfg s (RLOp.consume b0 n :: rest) =
            allowedLog cfg (consume cfg s b0 n).1 rest := by
          show ((if (consume cfg s b0 n).2.allowed then [(b0, n)] else []) ++ _) = _
          rw [hal]
          rfl
        rw [hlog, consume_denied_state cfg s b0 n hal]
        exact ih log n (prune s n) (RLInv_prune log last s hInv n hlast) hmono2 hge2 hbase
      | true =>
        have hlog : allowedLog cfg s (RLOp.consume b0 n :: rest) =
            (b0, n) :: allowedLog cfg (consume cfg s b0 n).1 rest := by
          show ((if (consume cfg s b0 n).2.allowed then [(b0, n)] else []) ++ _) = _
          rw [hal]
          rfl
        rw [hlog]
        have hnew := RLInv_consume_allowed cfg log last s hInv b0 n hlast hal
        have happ : log ++ (b0, n) :: allowedLog cfg (consume cfg s b0 n).1 rest =
            (log ++ [(b0, n)]) ++ allowedLog cfg (consume cfg s b0 n).1 rest := by
          simp
        rw [happ]
        apply ih (log ++ [(b0, n)]) n (consume cfg s b0 n).1 hnew hmono2 hge2
        rw [List.filter_append, List.length_append]
        by_cases hpred : ((b0, n).1 == b && decide (t ≤ n) &&
            decide (n ≤ t + HOUR_MS)) = true
        · have hcnt := (consume_allowed_conditions cfg s b0 n hal).1
          have hchar : getBot (prune s n) b0 =
              ((log.filter (fun c => c.1 == b0)).map (fun c => c.2)).filter
                (fun ts => rollingHourWindowStart n ≤ ts) :=
            (RLInv_prune log last s hInv n hlast).bot_char b0
          simp only [Bool.and_eq_true, beq_iff_eq, decide_eq_true_eq] at hpred
          have hb0 : b0 = b := hpred.1.1
          have hone : ([(b0, n)].filter (fun c => c.1 == b && decide (t ≤ c.2) &&
              decide (c.2 ≤ t + HOUR_MS))).length = 1 := by
            simp [List.filter_cons, hb0, hpred.1.2, hpred.2]
          rw [hone]
          have hle : ∀ c ∈ log, c.2 ≤ n := fun c hc =>
            le_trans (hInv.log_le c hc) hlast
          have hold : (log.filter (fun c => c.1 == b && decide (t ≤ c.2) &&
              decide (c.2 ≤ t + HOUR_MS))).length < cfg.perBotCap := by
            rw [← List.countP_eq_length_filter]
            apply Nat.lt_of_le_of_lt _ hcnt
            rw [hchar, hb0]
            exact countP_window_le_pruned log b t n hpred.2 hle
          omega
        · have hzero : ([(b0, n)].filter (fun c => c.1 == b && decide (t ≤ c.2) &&
              decide (c.2 ≤ t + HOUR_MS))).length = 0 := by
            simp only [List.filter_cons, hpred]
            rfl
          rw [hzero]
          simpa using hbase

theorem windowBound_global (cfg : RLConfig) (ops : List RLOp)
    (log : List (String × Nat)) (last : Nat) (s : RLState) (hInv : RLInv log last s)
    (hmono : (ops.map RLOp.time).Sorted (· ≤ ·))
    (hge : ∀ op ∈ ops, last ≤ op.time) (t : Nat)
    (hbase : (log.filter (fun c => decide (t ≤ c.2) &&
      decide (c.2 ≤ t + HOUR_MS))).length ≤ cfg.globalCap) :
    ((log ++ allowedLog cfg s ops).filter (fun c => decide (t ≤ c.2) &&
      decide (c.2 ≤ t + HOUR_MS))).length ≤ cfg.globalCap := by
  induction ops generalizing log last s with
  | nil => simpa [allowedLog] using hbase
  | cons op rest ih =>
    have hlast : last ≤ op.time := hge op (List.mem_cons_self _ _)
    have hmono2 : (rest.map RLOp.time).Sorted (· ≤ ·) := (List.sorted_cons.mp hmono).2
    have hge2 : ∀ o ∈ rest, op.time ≤ o.time := fun o ho =>
      (List.sorted_cons.mp hmono).1 o.time (List.mem_map.mpr ⟨o, ho, rfl⟩)
    cases op with
    | query b0 n =>
      have hlog : allowedLog cfg s (RLOp.query b0 n :: rest) =
          allowedLog cfg (prune s n) rest := by
        show allowedLog cfg (callsInLastHour s b0 n).1 rest = _
        rw [callsInLastHour_state]
      rw [hlog]
      exact ih log n (prune s n) (RLInv_prune log last s hInv n hlast) hmono2 hge2 hbase
    | consume b0 n =>
      cases hal : (consume cfg s b0 n).2.allowed with
      | false =>
        have hlog : allowedLog cfg s (RLOp.consume b0 n :: rest) =
            allowedLog cfg (consume cfg s b0 n).1 rest := by
          show ((if (consume cfg s b0 n).2.allowed then [(b0, n)] else []) ++ _) = _
          rw [hal]
          rfl
        rw [hlog, consume_denied_state cfg s b0 n hal]
        exact ih log n (prune s n) (RLInv_prune log last s hInv n hlast) hmono2 hge2 hbase
      | true =>
        have hlog : allowedLog cfg s (RLOp.consume b0 n :: rest) =
            (b0, n) :: allowedLog cfg (consume cfg s b0 n).1 rest := by
          show ((if (consume cfg s b0 n).2.allowed then [(b0, n)] else []) ++ _) = _
          rw [hal]
          rfl
        rw [hlog]
        have hnew := RLInv_consume_allowed cfg log last s hInv b0 n hlast hal
        have happ : log ++ (b0, n) :: allowedLog cfg (consume cfg s b0 n).1 rest =
            (log ++ [(b0, n)]) ++ allowedLog cfg (consume cfg s b0 n).1 rest := by
          simp
        rw [happ]
        apply ih (log ++ [(b0, n)]) n (consume cfg s b0 n).1 hnew hmono2 hge2
        rw [List.filter_append, List.length_append]
        by_cases hpred : (decide (t ≤ n) && decide (n ≤ t + HOUR_MS)) = true
        · have hcnt := (consume_allowed_conditions cfg s b0 n hal).2.1
          have hchar : (prune s n).globalCalls =
              (log.map (fun c => c.2)).filter
                (fun ts => rollingHourWindowStart n ≤ ts) :=
            (RLInv_prune log last s hInv n hlast).global_char
          simp only [Bool.and_eq_true, decide_eq_true_eq] at hpred
          have hone : ([(b0, n)].filter (fun c => decide (t ≤ c.2) &&
              decide (c.2 ≤ t + HOUR_MS))).length = 1 := by
            simp [List.filter_cons, hpred.1, hpred.2]
          rw [hone]
          have hle : ∀ c ∈ log, c.2 ≤ n := fun c hc =>
            le_trans (hInv.log_le c hc) hlast
          have hold : (log.filter (fun c => decide (t ≤ c.2) &&
              decide (c.2 ≤ t + HOUR_MS))).length < cfg.globalCap := by
            rw [← List.countP_eq_length_filter]
            apply Nat.lt_of_le_of_lt _ hcnt
            rw [hchar]
            exact countP_window_le_pruned_global log t n hpred.2 hle
          omega
        · have hzero : ([(b0, n)].filter (fun c => decide (t ≤ c.2) &&
              decide (c.2 ≤ t + HOUR_MS))).length = 0 := by
            simp only [List.filter_cons, hpred]
            rfl
          rw [hzero]
          simpa using hbase

/-- C2: rate-limit window bound. For every sequence of consume (and query)
calls at nondecreasing wall-clock times starting from a fresh limiter, and
every window [t, t+3600000 ms], at most perBotCap consume calls per agent
are allowed inside the window, and at most globalCap consume calls overall
are allowed inside the window. -/
theorem rateLimiter_window_bound (cfg : RLConfig) (ops : List RLOp)
    (hmono : (ops.map RLOp.time).Sorted (· ≤ ·)) (b : String) (t : Nat) :
    ((allowedLog cfg rlInit ops).filter (fun c => c.1 == b && decide (t ≤ c.2) &&
      decide (c.2 ≤ t + HOUR_MS))).length ≤ cfg.perBotCap ∧
    ((allowedLog cfg rlInit ops).filter (fun c => decide (t ≤ c.2) &&
      decide (c.2 ≤ t + HOUR_MS))).length ≤ cfg.globalCap := by
  constructor
  · have h := windowBound_bot cfg ops [] 0 rlInit RLInv_init hmono
      (fun op _ => Nat.zero_le _) b t (by simp)
    simpa using h
  · have h := windowBound_global cfg ops [] 0 rlInit RLInv_init hmono
      (fun op _ => Nat.zero_le _) t (by simp)
    simpa using h

/-- Witness for rateLimiter_window_bound: per-bot cap 2, global cap 10,
three consumes by agent A at times 0ms, 1ms, 2ms (the third is denied), in
the window starting at t = 0. -/
theorem rateLimiter_window_bound_witness :
    ((allowedLog ⟨2, 10⟩ rlInit [RLOp.consume "A" 0, RLOp.consume "A" 1,
        RLOp.consume "A" 2]).filter (fun c => c.1 == "A" && decide (0 ≤ c.2) &&
      decide (c.2 ≤ 0 + HOUR_MS))).length ≤ (2 : Nat) ∧
    ((allowedLog ⟨2, 10⟩ rlInit [RLOp.consume "A" 0, RLOp.consume "A" 1,
        RLOp.consume "A" 2]).filter (fun c => decide (0 ≤ c.2) &&
      decide (c.2 ≤ 0 + HOUR_MS))).length ≤ (10 : Nat) :=
  rateLimiter_window_bound ⟨2, 10⟩
    [RLOp.consume "A" 0, RLOp.consume "A" 1, RLOp.consume "A" 2]
    (by decide) "A" 0

/-- C3 counterexample: on a denial the limiter state is NOT always
unchanged: consume prunes hour-old timestamps before deciding, even when it
denies. With per-bot cap 1 and window [0, 3600005], the consume by A at
3600006 is denied, yet the stale timestamp 0 is dropped from both
windows, so the stored state differs from the input state. -/
theorem rateLimiter_denial_state_counterexample :
    (consume ⟨1, 10⟩ ⟨[("A", [0, 3600005])], [0, 3600005]⟩ "A" 3600006).2.allowed = false ∧
    (consume ⟨1, 10⟩ ⟨[("A", [0, 3600005])], [0, 3600005]⟩ "A" 3600006).1 ≠
      ⟨[("A", [0, 3600005])], [0, 3600005]⟩ := by
  decide

/-- C3 (amended): consume postconditions. The per-agent cap is evaluated
before the global cap (a full per-agent window yields BOT_CAP even when the
global window is also full); a cap of N denies every call that finds N
in-window timestamps (so the (N+1)-th call in the window is denied); on any
denial no timestamp is recorded in either window — the resulting state is
exactly the pruned input state (entries older than 3600000 ms are still
discarded, the one state change a denial can make); and every denial
carries retryAfterMs = max 1000 (earliest_in_window + 3600000 − now). -/
theorem rateLimiter_consume_postconditions (cfg : RLConfig) (s : RLState)
    (b : String) (now : Nat) :
    (cfg.perBotCap ≤ (getBot (prune s now) b).length →
      ((consume cfg s b now).2 = ⟨false, some LimitReason.BOT_CAP,
        some (max 1000 ((getBot (prune s now) b).headD now + HOUR_MS - now))⟩ ∧
      (consume cfg s b now).1 = prune s now)) ∧
    ((getBot (prune s now) b).length < cfg.perBotCap →
      cfg.globalCap ≤ (prune s now).globalCalls.length →
      ((consume cfg s b now).2 = ⟨false, some LimitReason.GLOBAL_CAP,
        some (max 1000 ((prune s now).globalCalls.headD now + HOUR_MS - now))⟩ ∧
      (consume cfg s b now).1 = prune s now)) ∧
    ((getBot (prune s now) b).length < cfg.perBotCap →
      (prune s now).globalCalls.length < cfg.globalCap →
      ((consume cfg s b now).2 = ⟨true, none, none⟩ ∧
      (consume cfg s b now).1 =
        ⟨setBot (prune s now).botCalls b (getBot (prune s now) b ++ [now]),
         (prune s now).globalCalls ++ [now]⟩)) := by
  refine ⟨?_, ?_, ?_⟩
  · intro h1
    rw [consume_eq, if_pos h1]
    exact ⟨rfl, rfl⟩
  · intro h1 h2
    rw [consume_eq, if_neg (Nat.not_le.mpr h1), if_pos h2]
    exact ⟨rfl, rfl⟩
  · intro h1 h2
    rw [consume_eq, if_neg (Nat.not_le.mpr h1), if_neg (Nat.not_le.mpr h2)]
    exact ⟨rfl, rfl⟩

/-- Witness for rateLimiter_consume_postconditions: cap 1, agent A already
holding one in-window timestamp at 5ms; the consume at 10ms is denied with
BOT_CAP and the state is the pruned input. -/
theorem rateLimiter_consume_postconditions_witness :
    (consume ⟨1, 1⟩ ⟨[("A", [5])], [5]⟩ "A" 10).2 = ⟨false, some LimitReason.BOT_CAP,
      some (max 1000 ((getBot (prune ⟨[("A", [5])], [5]⟩ 10) "A").headD 10 +
        HOUR_MS - 10))⟩ ∧
    (consume ⟨1, 1⟩ ⟨[("A", [5])], [5]⟩ "A" 10).1 = prune ⟨[("A", [5])], [5]⟩ 10 :=
  (rateLimiter_consume_postconditions ⟨1, 1⟩ ⟨[("A", [5])], [5]⟩ "A" 10).1 (by decide)

theorem lastTime_le (ops : List RLOp) (d now : Nat) (hd : d ≤ now)
    (h : ∀ op ∈ ops, op.time ≤ now) : lastTime ops d ≤ now := by
  induction ops generalizing d with
  | nil => exact hd
  | cons op rest ih =>
    rw [lastTime_cons]
    exact ih op.time (h op (List.mem_cons_self _ _))
      (fun o ho => h o (List.mem_cons_of_mem _ ho))

theorem sum_map_add_nat (keys : List String) (f g : String → Nat) :
    (keys.map (fun k => f k + g k)).sum = (keys.map f).sum + (keys.map g).sum := by
  induction keys with
  | nil => rfl
  | cons k ks ih =>
    simp only [List.map_cons, List.sum_cons, ih]
    omega

theorem sum_indicator_zero (keys : List String) (x : String) (hx : x ∉ keys) :
    (keys.map (fun k => if (x == k) = true then 1 else 0)).sum = 0 := by
  induction keys with
  | nil => rfl
  | cons k ks ih =>
    have hxk : ¬ (x == k) = true := by
      intro hc
      exact hx (eq_of_beq hc ▸ List.mem_cons_self _ _)
    have hxs : x ∉ ks := fun hc => hx (List.mem_cons_of_mem _ hc)
    simp only [List.map_cons, List.sum_cons, if_neg hxk, ih hxs]

theorem sum_indicator_one (keys : List String) (hnd : keys.Nodup) (x : String)
    (hx : x ∈ keys) :
    (keys.map (fun k => if (x == k) = true then 1 else 0)).sum = 1 := by
  induction keys with
  | nil => exact absurd hx (List.not_mem_nil x)
  | cons k ks ih =>
    rcases List.mem_cons.mp hx with heq | hin
    · have hxk : (x == k) = true := beq_iff_eq.mpr heq
      have hxs : x ∉ ks := heq ▸ (List.nodup_cons.mp hnd).1
      simp only [List.map_cons, List.sum_cons, if_pos hxk,
        sum_indicator_zero ks x hxs]
    · have hxk : ¬ (x == k) = true := by
        intro hc
        exact (List.nodup_cons.mp hnd).1 (eq_of_beq hc ▸ hin)
      simp only [List.map_cons, List.sum_cons, if_neg hxk,
        ih (List.nodup_cons.mp hnd).2 hin]

theorem countP_partition (L : List (String × Nat)) (keys : List String)
    (P : String × Nat → Bool) (hnd : keys.Nodup)
    (hcov : ∀ c ∈ L, P c = true → c.1 ∈ keys) :
    (keys.map (fun k => L.countP (fun c => c.1 == k && P c))).sum = L.countP P := by
  induction L with
  | nil => simp
  | cons c rest ih =>
    have hcov2 : ∀ x ∈ rest, P x = true → x.1 ∈ keys := fun x hx =>
      hcov x (List.mem_cons_of_mem _ hx)
    rw [List.countP_cons]
    have hmap : keys.map (fun k => (c :: rest).countP (fun c2 => c2.1 == k && P c2)) =
        keys.map (fun k => rest.countP (fun c2 => c2.1 == k && P c2) +
          (if (c.1 == k && P c) = true then 1 else 0)) := by
      apply List.map_congr_left
      intro k _
      rw [List.countP_cons]
    rw [hmap, sum_map_add_nat, ih hcov2]
    by_cases hP : P c = true
    · rw [if_pos hP]
      have hconv : keys.map (fun k => if (c.1 == k && P c) = true then 1 else 0) =
          keys.map (fun k => if (c.1 == k) = true then 1 else 0) := by
        apply List.map_congr_left
        intro k _
        rw [hP, Bool.and_true]
      rw [hconv, sum_indicator_one keys hnd c.1 (hcov c (List.mem_cons_self _ _) hP)]
    · rw [if_neg hP]
      rw [Bool.not_eq_true] at hP
      have hconv : keys.map (fun k => if (c.1 == k && P c) = true then 1 else 0) =
          keys.map (fun _ => (0 : Nat)) := by
        apply List.map_congr_left
        intro k _
        rw [hP, Bool.and_false]
        rfl
      rw [hconv]
      simp

theorem length_filtered_window (log : List (String × Nat)) (k : String) (th : Nat) :
    (((log.filter (fun c => c.1 == k)).map (fun c => c.2)).filter
      (fun ts => th ≤ ts)).length =
      log.countP (fun c => c.1 == k && decide (th ≤ c.2)) := by
  induction log with
  | nil => rfl
  | cons c rest ih =>
    rw [List.countP_cons, List.filter_cons]
    by_cases hkey : (c.1 == k) = true
    · rw [if_pos hkey, List.map_cons, List.filter_cons]
      by_cases hth : (decide (th ≤ c.2)) = true
      · rw [if_pos hth, List.length_cons, ih]
        have hand : (c.1 == k && decide (th ≤ c.2)) = true := by
          rw [hkey, hth]
          rfl
        rw [if_pos hand]
      · rw [if_neg hth, ih]
        have hand : ¬ (c.1 == k && decide (th ≤ c.2)) = true := by
          intro hc
          simp only [Bool.and_eq_true] at hc
          exact hth hc.2
        rw [if_neg hand]
        omega
    · rw [if_neg hkey, ih]
      have hand : ¬ (c.1 == k && decide (th ≤ c.2)) = true := by
        intro hc
        simp only [Bool.and_eq_true] at hc
        exact hkey hc.1
      rw [if_neg hand]
      omega

theorem length_global_window (log : List (String × Nat)) (th : Nat) :
    ((log.map (fun c => c.2)).filter (fun ts => th ≤ ts)).length =
      log.countP (fun c => decide (th ≤ c.2)) := by
  induction log with
  | nil => rfl
  | cons c rest ih =>
    rw [List.countP_cons, List.map_cons, List.filter_cons]
    by_cases hth : (decide (th ≤ c.2)) = true
    · rw [if_pos hth, List.length_cons, ih, if_pos hth]
    · rw [if_neg hth, ih, if_neg hth]
      omega

theorem sum_entry_lengths (log : List (String × Nat)) (last : Nat) (s : RLState)
    (hInv : RLInv log last s) :
    (s.botCalls.map (fun p => p.2.length)).sum = s.globalCalls.length := by
  have hvals : s.botCalls.map (fun p => p.2.length) =
      (s.botCalls.map (fun p => p.1)).map (fun k =>
        log.countP (fun c => c.1 == k &&
          decide (rollingHourWindowStart last ≤ c.2))) := by
    rw [List.map_map]
    apply List.map_congr_left
    intro p hp
    show p.2.length = log.countP _
    have h1 : p.2 = getBot s p.1 := (getBot_of_mem s hInv.keys_nodup p hp).symm
    rw [h1, hInv.bot_char p.1]
    exact length_filtered_window log p.1 (rollingHourWindowStart last)
  rw [hvals, hInv.global_char, length_global_window]
  apply countP_partition log (s.botCalls.map (fun p => p.1))
    (fun c => decide (rollingHourWindowStart last ≤ c.2)) hInv.keys_nodup
  intro c hc hP
  apply mem_keys_of_getBot_ne s c.1
  rw [hInv.bot_char c.1]
  intro hnil
  have hmem : c.2 ∈ (((log.filter (fun c2 => c2.1 == c.1)).map
      (fun c2 => c2.2)).filter (fun ts => rollingHourWindowStart last ≤ ts)) := by
    apply List.mem_filter.mpr
    refine ⟨?_, hP⟩
    exact List.mem_map.mpr ⟨c, List.mem_filter.mpr ⟨hc, by simp⟩, rfl⟩
  rw [hnil] at hmem
  exact List.not_mem_nil c.2 hmem

/-- C10 counterexample: callsInLastHour guards its optional bot id with a
FALSY check, so querying the empty-string agent returns the GLOBAL window
length. After allowed consumes by agents "" and "A", the no-argument query
reports 2, while the sum of callsInLastHour(agent) over the stored agents
reports 2 + 1 = 3: the claimed global = sum-of-per-agent-queries identity
fails. -/
theorem rateLimiter_global_falsy_counterexample :
    (callsInLastHour (runRL ⟨5, 5⟩ rlInit
        [RLOp.consume "" 0, RLOp.consume "A" 5]) none 10).2 ≠
      ((prune (runRL ⟨5, 5⟩ rlInit
          [RLOp.consume "" 0, RLOp.consume "A" 5]) 10).botCalls.map
        (fun p => (callsInLastHour (runRL ⟨5, 5⟩ rlInit
          [RLOp.consume "" 0, RLOp.consume "A" 5]) (some p.1) 10).2)).sum := by
  decide

/-- C10 (amended): rate-limiter global/per-agent consistency. After any
sequence of consume and callsInLastHour calls at nondecreasing times from
a fresh limiter, querying at any time `now` not before the last call: the
global window is exactly the list of allowed consume times still inside
the hour; the no-argument query equals the sum of the per-agent window
lengths; each stored per-agent entry with a NON-EMPTY agent id reports its
own length through callsInLastHour; and non-empty agent ids without an
entry report zero. The non-emptiness proviso is forced by the source's
falsy botId check (see the counterexample): querying the empty-string id
reports the global window length instead. -/
theorem rateLimiter_global_consistency (cfg : RLConfig) (ops : List RLOp) (now : Nat)
    (hmono : (ops.map RLOp.time).Sorted (· ≤ ·))
    (hnow : ∀ op ∈ ops, op.time ≤ now) :
    (prune (runRL cfg rlInit ops) now).globalCalls =
      ((allowedLog cfg rlInit ops).map (fun c => c.2)).filter
        (fun ts => rollingHourWindowStart now ≤ ts) ∧
    (callsInLastHour (runRL cfg rlInit ops) none now).2 =
      ((prune (runRL cfg rlInit ops) now).botCalls.map (fun p => p.2.length)).sum ∧
    (∀ p ∈ (prune (runRL cfg rlInit ops) now).botCalls, p.1 ≠ "" →
      (callsInLastHour (runRL cfg rlInit ops) (some p.1) now).2 = p.2.length) ∧
    (∀ b, b ≠ "" → b ∉ (prune (runRL cfg rlInit ops) now).botCalls.map (fun p => p.1) →
      (callsInLastHour (runRL cfg rlInit ops) (some b) now).2 = 0) := by
  have hrun := RLInv_run cfg ops [] 0 rlInit RLInv_init hmono (fun op _ => Nat.zero_le _)
  rw [List.nil_append] at hrun
  have hlastle : lastTime ops 0 ≤ now := lastTime_le ops 0 now (Nat.zero_le _) hnow
  have hpruned := RLInv_prune _ _ _ hrun now hlastle
  refine ⟨hpruned.global_char, ?_, ?_, ?_⟩
  · show (prune (runRL cfg rlInit ops) now).globalCalls.length = _
    exact (sum_entry_lengths (allowedLog cfg rlInit ops) now _ hpruned).symm
  · intro p hp hne
    show (if p.1 = "" then (prune (runRL cfg rlInit ops) now).globalCalls.length
      else (getBot (prune (runRL cfg rlInit ops) now) p.1).length) = p.2.length
    rw [if_neg hne]
    rw [getBot_of_mem _ hpruned.keys_nodup p hp]
  · intro b hne hb
    show (if b = "" then (prune (runRL cfg rlInit ops) now).globalCalls.length
      else (getBot (prune (runRL cfg rlInit ops) now) b).length) = 0
    rw [if_neg hne]
    unfold getBot
    rw [find_none_of_not_mem_keys _ b hb]
    rfl

/-- Witness for rateLimiter_global_consistency: consumes by A at 0ms and B
at 5ms, then a query at 6ms, all observed at now = 10ms; the per-agent
query for the stored non-empty id A reports its own entry length. -/
theorem rateLimiter_global_consistency_witness :
    (prune (runRL ⟨5, 5⟩ rlInit [RLOp.consume "A" 0, RLOp.consume "B" 5,
        RLOp.query none 6]) 10).globalCalls =
      ((allowedLog ⟨5, 5⟩ rlInit [RLOp.consume "A" 0, RLOp.consume "B" 5,
        RLOp.query none 6]).map (fun c => c.2)).filter
        (fun ts => rollingHourWindowStart 10 ≤ ts) ∧
    (callsInLastHour (runRL ⟨5, 5⟩ rlInit [RLOp.consume "A" 0, RLOp.consume "B" 5,
        RLOp.query none 6]) none 10).2 =
      ((prune (runRL ⟨5, 5⟩ rlInit [RLOp.consume "A" 0, RLOp.consume "B" 5,
        RLOp.query none 6]) 10).botCalls.map (fun p => p.2.length)).sum ∧
    (callsInLastHour (runRL ⟨5, 5⟩ rlInit [RLOp.consume "A" 0, RLOp.consume "B" 5,
        RLOp.query none 6]) (some "A") 10).2 = 1 := by
  have h := rateLimiter_global_consistency ⟨5, 5⟩
    [RLOp.consume "A" 0, RLOp.consume "B" 5, RLOp.query none 6] 10
    (by decide) (by decide)
  refine ⟨h.1, h.2.1, ?_⟩
  exact h.2.2.1 ("A", [0]) (by decide) (by decide)

end RL

namespace Guard

theorem enforceLoop_passthrough (cat : Catalog) (rd poi : List (String × Int))
    (plan : List PlannerSubgoal) (st : GuardSt)
    (h : ∀ sg ∈ plan, sg.name ≠ SubgoalName.collect ∧
      sg.name ≠ SubgoalName.goto_nearest ∧ sg.name ≠ SubgoalName.craft) :
    (enforceLoop cat rd poi plan st).1 = plan ∧
    (enforceLoop cat rd poi plan st).2.notes = st.notes := by
  induction plan generalizing st with
  | nil => exact ⟨rfl, rfl⟩
  | cons sg rest ih =>
    obtain ⟨h1, h2, h3⟩ := h sg (List.mem_cons_self _ _)
    have hrest : ∀ x ∈ rest, x.name ≠ SubgoalName.collect ∧
        x.name ≠ SubgoalName.goto_nearest ∧ x.name ≠ SubgoalName.craft :=
      fun x hx => h x (List.mem_cons_of_mem _ hx)
    have hif1 : ¬ (sg.name = SubgoalName.collect ∨
        sg.name = SubgoalName.goto_nearest) := by
      rintro (hc | hc)
      · exact h1 hc
      · exact h2 hc
    have hstep : enforceLoop cat rd poi (sg :: rest) st =
        (sg :: (enforceLoop cat rd poi rest
          ⟨applyProjectedOutcome cat rd st.projected sg, st.notes⟩).1,
         (enforceLoop cat rd poi rest
          ⟨applyProjectedOutcome cat rd st.projected sg, st.notes⟩).2) := by
      rw [enforceLoop]
      rw [if_neg hif1, if_neg h3]
    rw [hstep]
    exact ⟨by rw [(ih _ hrest).1], (ih _ hrest).2⟩

theorem dedupeLoop_cons_none (output : List PlannerSubgoal) (sg : PlannerSubgoal)
    (rest : List PlannerSubgoal) (dropped : Nat) (hlast : output.getLast? = none) :
    dedupeLoop output (sg :: rest) dropped =
      dedupeLoop (output ++ [sg]) rest dropped := by
  rw [dedupeLoop, hlast]

theorem dedupeLoop_cons_some (output : List PlannerSubgoal) (sg prev : PlannerSubgoal)
    (rest : List PlannerSubgoal) (dropped : Nat) (hlast : output.getLast? = some prev) :
    dedupeLoop output (sg :: rest) dropped =
      if prev = sg then dedupeLoop output rest (dropped + 1)
      else dedupeLoop (output ++ [sg]) rest dropped := by
  rw [dedupeLoop, hlast]

theorem dedupeLoop_mem (input : List PlannerSubgoal) :
    ∀ output dropped (x : PlannerSubgoal),
      x ∈ (dedupeLoop output input dropped).1 → x ∈ output ∨ x ∈ input := by
  induction input with
  | nil =>
    intro output dropped x hx
    left
    simpa [dedupeLoop] using hx
  | cons sg rest ih =>
    intro output dropped x hx
    cases hlast : output.getLast? with
    | none =>
      rw [dedupeLoop_cons_none output sg rest dropped hlast] at hx
      rcases ih _ _ _ hx with hmem | hmem
      · rcases List.mem_append.mp hmem with hm | hm
        · exact Or.inl hm
        · right
          simp only [List.mem_singleton] at hm
          simp [hm]
      · exact Or.inr (List.mem_cons_of_mem _ hmem)
    | some prev =>
      rw [dedupeLoop_cons_some output sg prev rest dropped hlast] at hx
      by_cases heq : prev = sg
      · rw [if_pos heq] at hx
        rcases ih _ _ _ hx with hmem | hmem
        · exact Or.inl hmem
        · exact Or.inr (List.mem_cons_of_mem _ hmem)
      · rw [if_neg heq] at hx
        rcases ih _ _ _ hx with hmem | hmem
        · rcases List.mem_append.mp hmem with hm | hm
          · exact Or.inl hm
          · right
            simp only [List.mem_singleton] at hm
            simp [hm]
        · exact Or.inr (List.mem_cons_of_mem _ hmem)

theorem dedupeLoop_chain (input : List PlannerSubgoal) :
    ∀ output dropped, output.Chain' (· ≠ ·) →
      (dedupeLoop output input dropped).1.Chain' (· ≠ ·) := by
  induction input with
  | nil =>
    intro output dropped hout
    simpa [dedupeLoop] using hout
  | cons sg rest ih =>
    intro output dropped hout
    cases hlast : output.getLast? with
    | none =>
      rw [dedupeLoop_cons_none output sg rest dropped hlast]
      apply ih
      apply List.chain'_append.mpr
      refine ⟨hout, List.chain'_singleton sg, ?_⟩
      intro x hx
      rw [hlast] at hx
      simp at hx
    | some prev =>
      rw [dedupeLoop_cons_some output sg prev rest dropped hlast]
      by_cases heq : prev = sg
      · rw [if_pos heq]
        exact ih _ _ hout
      · rw [if_neg heq]
        apply ih
        apply List.chain'_append.mpr
        refine ⟨hout, List.chain'_singleton sg, ?_⟩
        intro x hx y hy
        rw [hlast] at hx
        simp only [Option.mem_def, Option.some.injEq] at hx
        simp only [List.head?_cons, Option.mem_def, Option.some.injEq] at hy
        rw [← hx, ← hy]
        exact heq

theorem dedupeLoop_of_chain (input : List PlannerSubgoal)
    (hchain : input.Chain' (· ≠ ·)) :
    ∀ output dropped, (∀ prev ∈ output.getLast?, ∀ y ∈ input.head?, prev ≠ y) →
      dedupeLoop output input dropped = (output ++ input, dropped) := by
  induction input with
  | nil =>
    intro output dropped _
    simp [dedupeLoop]
  | cons sg rest ih =>
    rcases List.chain'_cons'.mp hchain with ⟨hhead, hch⟩
    intro output dropped hcompat
    cases hlast : output.getLast? with
    | none =>
      rw [dedupeLoop_cons_none output sg rest dropped hlast]
      rw [ih hch (output ++ [sg]) dropped ?_]
      · simp
      · intro prev hprev y hy
        rw [List.getLast?_concat] at hprev
        simp only [Option.mem_def, Option.some.injEq] at hprev
        rw [← hprev]
        exact hhead y hy
    | some prev =>
      have hne : prev ≠ sg := by
        apply hcompat prev _ sg rfl
        rw [hlast]
        rfl
      rw [dedupeLoop_cons_some output sg prev rest dropped hlast]
      rw [if_neg hne]
      rw [ih hch (output ++ [sg]) dropped ?_]
      · simp
      · intro p hp y hy
        rw [List.getLast?_concat] at hp
        simp only [Option.mem_def, Option.some.injEq] at hp
        rw [← hp]
        exact hhead y hy

theorem dedupeAdjacent_of_chain (l : List PlannerSubgoal) (notes : List String)
    (hchain : l.Chain' (· ≠ ·)) :
    dedupeAdjacentSubgoals l notes = (l, notes) := by
  unfold dedupeAdjacentSubgoals
  rw [dedupeLoop_of_chain l hchain [] 0 (by intro prev hprev y hy; simp at hprev)]
  simp

theorem guard_subgoals_eq (cat : Catalog) (snap : SnapshotV1)
    (plan : List PlannerSubgoal)
    (h : ∀ sg ∈ plan, sg.name ≠ SubgoalName.collect ∧
      sg.name ≠ SubgoalName.goto_nearest ∧ sg.name ≠ SubgoalName.craft) :
    (enforceSubgoalPrerequisites cat snap plan).subgoals =
      (dedupeLoop [] plan 0).1 := by
  have hpass := enforceLoop_passthrough cat (buildNearbyResourceDistance snap)
    (buildNearbyPoiDistance snap) plan ⟨buildProjectedInventory snap, []⟩ h
  show (dedupeAdjacentSubgoals (enforceLoop cat (buildNearbyResourceDistance snap)
    (buildNearbyPoiDistance snap) plan ⟨buildProjectedInventory snap, []⟩).1
    (enforceLoop cat (buildNearbyResourceDistance snap)
      (buildNearbyPoiDistance snap) plan ⟨buildProjectedInventory snap, []⟩).2.notes).1 = _
  rw [hpass.1]
  rfl

/-- C7 counterexample: the guard is NOT idempotent. On the plan
[collect one rock] with the tiny catalog, the first pass inserts the tool
prerequisite (goto_nearest pickblock, collect pick) before the
canonicalized collect; the second pass resolves the inserted
collect-the-pick entry to its source block and canonicalizes it by ADDING
a block parameter, so the subgoal sequence changes. -/
theorem guard_idempotence_counterexample :
    (enforceSubgoalPrerequisites cexCatalog cexSnap
      (enforceSubgoalPrerequisites cexCatalog cexSnap cexPlan).subgoals).subgoals ≠
      (enforceSubgoalPrerequisites cexCatalog cexSnap cexPlan).subgoals := by
  decide

/-- C7 (amended): enforceSubgoalPrerequisites is not idempotent in general
(see the counterexample), but it is idempotent on the subgoal sequence for
every plan containing no collect, goto_nearest or craft entry: such plans
pass through the enforcement loop unchanged and are only deduplicated, and
deduplication is idempotent. -/
theorem guard_idempotent_on_passthrough (cat : Catalog) (snap : SnapshotV1)
    (plan : List PlannerSubgoal)
    (h : ∀ sg ∈ plan, sg.name ≠ SubgoalName.collect ∧
      sg.name ≠ SubgoalName.goto_nearest ∧ sg.name ≠ SubgoalName.craft) :
    (enforceSubgoalPrerequisites cat snap
      (enforceSubgoalPrerequisites cat snap plan).subgoals).subgoals =
      (enforceSubgoalPrerequisites cat snap plan).subgoals := by
  have hsub1 := guard_subgoals_eq cat snap plan h
  have hmem2 : ∀ sg ∈ (dedupeLoop [] plan 0).1,
      sg.name ≠ SubgoalName.collect ∧ sg.name ≠ SubgoalName.goto_nearest ∧
      sg.name ≠ SubgoalName.craft := by
    intro sg hsg
    rcases dedupeLoop_mem plan [] 0 sg hsg with hm | hm
    · cases hm
    · exact h sg hm
  have hchain2 : (dedupeLoop [] plan 0).1.Chain' (· ≠ ·) :=
    dedupeLoop_chain plan [] 0 List.chain'_nil
  have hsub2 := guard_subgoals_eq cat snap (dedupeLoop [] plan 0).1 hmem2
  rw [hsub1, hsub2]
  rw [dedupeLoop_of_chain (dedupeLoop [] plan 0).1 hchain2 [] 0
    (by intro prev hprev y hy; simp at hprev)]
  rfl

/-- Witness for guard_idempotent_on_passthrough: a plan of one explore
subgoal through the tiny catalog and the quiet snapshot. -/
theorem guard_idempotent_on_passthrough_witness :
    (∀ sg ∈ [(⟨SubgoalName.explore, [], []⟩ : PlannerSubgoal)],
      sg.name ≠ SubgoalName.collect ∧ sg.name ≠ SubgoalName.goto_nearest ∧
      sg.name ≠ SubgoalName.craft) ∧
    (enforceSubgoalPrerequisites cexCatalog cexSnap
      (enforceSubgoalPrerequisites cexCatalog cexSnap
        [(⟨SubgoalName.explore, [], []⟩ : PlannerSubgoal)]).subgoals).subgoals =
      (enforceSubgoalPrerequisites cexCatalog cexSnap
        [(⟨SubgoalName.explore, [], []⟩ : PlannerSubgoal)]).subgoals :=
  ⟨by decide, guard_idempotent_on_passthrough cexCatalog cexSnap
    [(⟨SubgoalName.explore, [], []⟩ : PlannerSubgoal)] (by decide)⟩

end Guard

namespace FP

/-- C8: buildFallbackPlan is a pure function of its arguments that decides
the cases in order. With hostiles listed nearest-first (as the snapshot
builder emits them), (1) health ≤ 8 gives goto(base) then
combat_guard(radius 12, duration 6000ms) flagged LOW_HEALTH; else
(2) inventory load ≥ 120 gives goto(base) then
deposit(strategy all_non_essential) flagged INVENTORY_PRESSURE; else
(3) some hostile nearer than 10 gives combat_engage(max_targets 2,
max_distance 18) flagged HOSTILES_NEARBY; else (4) the autonomous
progression plan is returned, flagged with the reason only. -/
theorem fallbackPlanner_case_analysis (cat : Guard.Catalog) (snap : SnapshotV1)
    (reason : String) (base : BasePosition)
    (hsorted : snap.nearby_summary.hostiles.Sorted
      (fun a b => a.distance ≤ b.distance)) :
    (snap.player.health ≤ 8 →
      buildFallbackPlan cat snap reason base =
        ⟨"stabilize_and_recover",
         [gotoBaseSubgoal base,
          ⟨SubgoalName.combat_guard,
           [("radius", Value.num 12), ("duration_ms", Value.num 6000)],
           [("no_hostiles_within", Value.num 12)]⟩],
         [reason, "LOW_HEALTH"]⟩) ∧
    (¬ snap.player.health ≤ 8 → 120 ≤ inventoryLoad snap →
      buildFallbackPlan cat snap reason base =
        ⟨"deposit_inventory",
         [gotoBaseSubgoal base,
          ⟨SubgoalName.deposit,
           [("strategy", Value.str "all_non_essential")],
           [("free_slots_min", Value.num 16)]⟩],
         [reason, "INVENTORY_PRESSURE"]⟩) ∧
    (¬ snap.player.health ≤ 8 → ¬ 120 ≤ inventoryLoad snap →
      (∃ h0 ∈ snap.nearby_summary.hostiles, h0.distance < 10) →
      buildFallbackPlan cat snap reason base =
        ⟨"clear_local_threats",
         [⟨SubgoalName.combat_engage,
           [("max_targets", Value.num 2), ("max_distance", Value.num 18)],
           [("hostiles_within", Value.num 10), ("equals", Value.num 0)]⟩],
         [reason, "HOSTILES_NEARBY"]⟩) ∧
    (¬ snap.player.health ≤ 8 → ¬ 120 ≤ inventoryLoad snap →
      (∀ h0 ∈ snap.nearby_summary.hostiles, ¬ h0.distance < 10) →
      buildFallbackPlan cat snap reason base =
        ⟨(Guard.buildAutonomousProgressionPlan cat snap 8).reason,
         (Guard.buildAutonomousProgressionPlan cat snap 8).subgoals,
         [reason]⟩) := by
  refine ⟨?_, ?_, ?_, ?_⟩
  · intro hh
    unfold buildFallbackPlan
    rw [if_pos hh]
  · intro hh hl
    unfold buildFallbackPlan
    rw [if_neg hh, if_pos hl]
  · intro hh hl hex
    obtain ⟨h0, hmem, hlt⟩ := hex
    have hhead : headHostileWithin10 snap.nearby_summary.hostiles = true := by
      cases hcase : snap.nearby_summary.hostiles with
      | nil =>
        rw [hcase] at hmem
        cases hmem
      | cons a tl =>
        rw [hcase] at hmem hsorted
        have hale : a.distance < 10 := by
          rcases List.mem_cons.mp hmem with heq | hmem2
          · rw [← heq]
            exact hlt
          · have := (List.sorted_cons.mp hsorted).1 h0 hmem2
            omega
        simp [headHostileWithin10, hale]
    unfold buildFallbackPlan
    rw [if_neg hh, if_neg hl, if_pos hhead]
  · intro hh hl hall
    have hhead : ¬ headHostileWithin10 snap.nearby_summary.hostiles = true := by
      cases hcase : snap.nearby_summary.hostiles with
      | nil => simp [headHostileWithin10]
      | cons a tl =>
        have := hall a (by rw [hcase]; exact List.mem_cons_self _ _)
        simp [headHostileWithin10, this]
    unfold buildFallbackPlan
    rw [if_neg hh, if_neg hl, if_neg hhead]

/-- Witness for fallbackPlanner_case_analysis: the low-health branch at
health 5, and the progression branch on the quiet snapshot. -/
theorem fallbackPlanner_case_analysis_witness :
    buildFallbackPlan cexCatalog
      ⟨"bot1", ⟨⟨0, 64, 0⟩, "overworld", 5, 20, []⟩, ⟨0, [], 0, []⟩, ⟨[], [], []⟩⟩
      "LOW" ⟨0, 64, 0, 8⟩ =
      ⟨"stabilize_and_recover",
       [gotoBaseSubgoal ⟨0, 64, 0, 8⟩,
        ⟨SubgoalName.combat_guard,
         [("radius", Value.num 12), ("duration_ms", Value.num 6000)],
         [("no_hostiles_within", Value.num 12)]⟩],
       ["LOW", "LOW_HEALTH"]⟩ ∧
    buildFallbackPlan cexCatalog cexSnap "CALM" ⟨0, 64, 0, 8⟩ =
      ⟨(Guard.buildAutonomousProgressionPlan cexCatalog cexSnap 8).reason,
       (Guard.buildAutonomousProgressionPlan cexCatalog cexSnap 8).subgoals,
       ["CALM"]⟩ :=
  ⟨(fallbackPlanner_case_analysis cexCatalog
      ⟨"bot1", ⟨⟨0, 64, 0⟩, "overworld", 5, 20, []⟩, ⟨0, [], 0, []⟩, ⟨[], [], []⟩⟩
      "LOW" ⟨0, 64, 0, 8⟩ (by decide)).1 (by decide),
   (fallbackPlanner_case_analysis cexCatalog cexSnap "CALM" ⟨0, 64, 0, 8⟩
      (by decide)).2.2.2 (by decide) (by decide) (by decide)⟩

theorem asPositiveInt_one_le (v : Option Value) : 1 ≤ asPositiveInt v 1 := by
  unfold asPositiveInt
  cases jsNumberOpt v with
  | none => exact le_refl 1
  | some p =>
    show 1 ≤ if p ≤ 0 then 1 else max 1 p
    split
    · exact le_refl 1
    · exact le_max_left 1 p

theorem normalizeCollect_shape (nm : SubgoalName) (prm sc : List (String × Value))
    (target : String)
    (hpick : pickString [getParam prm "item", getParam prm "block",
      getParam prm "resource", getParam prm "resource_type",
      getParam prm "type"] = some target) :
    normalizeCollect ⟨nm, prm, sc⟩ =
      some ⟨nm,
        (if (jsNumberOpt (getParam prm "max_distance")).isSome then
          [("block", Value.str target),
           ("count", Value.num (asPositiveInt (countAlias prm) 1)),
           ("max_distance",
            Value.num (asPositiveInt (getParam prm "max_distance") 48))]
        else
          [("block", Value.str target),
           ("count", Value.num (asPositiveInt (countAlias prm) 1))]),
        sc⟩ := by
  unfold normalizeCollect
  dsimp only
  simp only [hpick]
  split
  · rfl
  · rfl

/-- C9: normalizer collect canonicalization. (a) Every collect subgoal
with a recognized string target among the item/block/resource/
resource_type/type aliases normalizes to a fresh collect whose params are
the canonical block and count keys (count an integer ≥ 1, from the
count/amount/qty aliases) plus max_distance exactly when a numeric one was
given; (b) a collect subgoal with no valid target alias is dropped from
the output and a dropped_invalid_subgoal note is emitted; (c) concretely,
collect(type stone, amount 10) at index 0 yields collect(block stone,
count 10) with note normalized_subgoal_0_collect. -/
theorem normalizer_collect_canonicalization (sg sgBad : PlannerSubgoal)
    (target : String)
    (hname : sg.name = SubgoalName.collect)
    (hpick : pickString [getParam sg.params "item", getParam sg.params "block",
      getParam sg.params "resource", getParam sg.params "resource_type",
      getParam sg.params "type"] = some target)
    (hnameB : sgBad.name = SubgoalName.collect)
    (hpickB : pickString [getParam sgBad.params "item", getParam sgBad.params "block",
      getParam sgBad.params "resource", getParam sgBad.params "resource_type",
      getParam sgBad.params "type"] = none) :
    (∃ c : Int, 1 ≤ c ∧
      normalizeOne sg = some ⟨SubgoalName.collect,
        (if (jsNumberOpt (getParam sg.params "max_distance")).isSome then
          [("block", Value.str target), ("count", Value.num c),
           ("max_distance",
            Value.num (asPositiveInt (getParam sg.params "max_distance") 48))]
        else [("block", Value.str target), ("count", Value.num c)]),
        sg.success_criteria⟩) ∧
    (∀ idx rest, normalizeAux idx (sgBad :: rest) =
      ((normalizeAux (idx + 1) rest).1,
       ("dropped_invalid_subgoal_" ++ toString idx ++ "_collect") ::
         (normalizeAux (idx + 1) rest).2)) ∧
    normalizePlannerSubgoals
      [⟨SubgoalName.collect,
        [("type", Value.str "stone"), ("amount", Value.num 10)], []⟩] =
      ⟨[⟨SubgoalName.collect,
         [("block", Value.str "stone"), ("count", Value.num 10)], []⟩],
       ["normalized_subgoal_0_collect"]⟩ := by
  refine ⟨?_, ?_, by decide⟩
  · obtain ⟨nm, prm, sc⟩ := sg
    dsimp only at hname hpick ⊢
    subst hname
    refine ⟨asPositiveInt (countAlias prm) 1, asPositiveInt_one_le _, ?_⟩
    show normalizeCollect ⟨SubgoalName.collect, prm, sc⟩ = _
    rw [normalizeCollect_shape SubgoalName.collect prm sc target hpick]
  · intro idx rest
    obtain ⟨nm, prm, sc⟩ := sgBad
    dsimp only at hnameB hpickB
    subst hnameB
    have hnone : normalizeOne ⟨SubgoalName.collect, prm, sc⟩ = none := by
      show normalizeCollect ⟨SubgoalName.collect, prm, sc⟩ = none
      unfold normalizeCollect
      dsimp only
      rw [hpickB]
    have hred : normalizeAux idx
        ((⟨SubgoalName.collect, prm, sc⟩ : PlannerSubgoal) :: rest) =
        ((normalizeAux (idx + 1) rest).1,
         ("dropped_invalid_subgoal_" ++ toString idx ++ "_" ++
           subgoalNameKey SubgoalName.collect) :: (normalizeAux (idx + 1) rest).2) := by
      rw [normalizeAux, hnone]
    rw [hred]
    rw [String.append_assoc]
    rfl

/-- Witness for normalizer_collect_canonicalization: collect(type stone,
amount 10) has target "stone"; collect(count 3) has no target alias and is
dropped at index 0. -/
theorem normalizer_collect_canonicalization_witness :
    normalizeAux 0 [(⟨SubgoalName.collect, [("count", Value.num 3)], []⟩ :
        PlannerSubgoal)] =
      ((normalizeAux 1 []).1,
       "dropped_invalid_subgoal_0_collect" :: (normalizeAux 1 []).2) ∧
    normalizePlannerSubgoals
      [⟨SubgoalName.collect,
        [("type", Value.str "stone"), ("amount", Value.num 10)], []⟩] =
      ⟨[⟨SubgoalName.collect,
         [("block", Value.str "stone"), ("count", Value.num 10)], []⟩],
       ["normalized_subgoal_0_collect"]⟩ := by
  have h := normalizer_collect_canonicalization
    ⟨SubgoalName.collect, [("type", Value.str "stone"), ("amount", Value.num 10)], []⟩
    ⟨SubgoalName.collect, [("count", Value.num 3)], []⟩
    "stone" rfl (by decide) rfl (by decide)
  exact ⟨h.2.1 0 [], h.2.2⟩

end FP

end MinecraftAI
